import Mathlib

/-!
Shallow embedding of the trap/interrupt dispatch core of a bare-metal RISC-V
supervisor-mode kernel (riscv-rustos), together with theorems settling the
specification claims about it.

The embedding follows the Rust sources:
  * `src/trap/ds/handler.rs`          — handler entries, protection levels
  * `src/trap/infrastructure/registry.rs` — the per-trap-type handler registry
  * `src/trap/api.rs`                 — the public API error translation
  * `src/trap/ds/error.rs`            — system errors, error log
  * `src/trap/ds/error_manager.rs`    — error dispatch and panic latch
  * `src/trap/ds/context_manager.rs`  — interrupt nesting counter

Machine integers (`u8` priorities, `u64` registrar ids, `usize` counters) are
modelled as `Nat`: the code performs no wrapping arithmetic on them, only
comparisons and in-range increments.  Handler function pointers are modelled
as Lean functions.  Imperative loops are translated into structurally
recursive functions over the fixed-size slot lists.
-/

namespace TrapOS

/-- Protection level of a trap handler (`src/trap/ds/handler.rs`). -/
inductive ProtectionLevel where
  | System
  | User
deriving DecidableEq, Repr

/-- Registrar identifier (`pub type RegistrarId = u64`). -/
abbrev RegistrarId := Nat

/-- Reserved registrar id for the kernel itself (`SYSTEM_REGISTRAR_ID = 0`). -/
def SYSTEM_REGISTRAR_ID : RegistrarId := 0

/-- Trap handling errors (`src/trap/ds/handler.rs`). -/
inductive TrapError where
  | NoHandler
  | HandlerFailed
  | Unknown
deriving DecidableEq, Repr

/-- Result returned by a trap handler (`src/trap/ds/handler.rs`). -/
inductive TrapHandlerResult where
  | Handled
  | Pass
  | Failed (err : TrapError)
deriving DecidableEq, Repr

/-- Full trap context (`src/trap/ds/context.rs`): 32 general registers plus
the four privileged registers.  Handlers may mutate it. -/
structure TrapContext where
  x : List Nat
  sstatus : Nat
  sepc : Nat
  scause : Nat
  stval : Nat

/-- `TrapContext::new()`. -/
def TrapContext.new : TrapContext :=
  { x := List.replicate 32 0, sstatus := 0, sepc := 0, scause := 0, stval := 0 }

/-- Trap handler function type (`fn(&mut TrapContext) -> TrapHandlerResult`):
the `&mut` argument is modelled by returning the updated context. -/
abbrev TrapHandler := TrapContext → TrapContext × TrapHandlerResult

/-- Handler registration info (`HandlerEntry` in `src/trap/ds/handler.rs`). -/
structure HandlerEntry where
  handler : TrapHandler
  priority : Nat
  description : String
  protection_level : ProtectionLevel
  registrar_id : RegistrarId

/-- `HandlerEntry::new` — the compatibility constructor: protection defaults
to `System` and the registrar to the reserved system id. -/
def HandlerEntry.new (handler : TrapHandler) (priority : Nat)
    (description : String) : HandlerEntry :=
  { handler := handler, priority := priority, description := description,
    protection_level := ProtectionLevel.System,
    registrar_id := SYSTEM_REGISTRAR_ID }

/-- `HandlerEntry::new_with_protection`. -/
def HandlerEntry.new_with_protection (handler : TrapHandler) (priority : Nat)
    (description : String) (protection_level : ProtectionLevel)
    (registrar_id : RegistrarId) : HandlerEntry :=
  { handler := handler, priority := priority, description := description,
    protection_level := protection_level, registrar_id := registrar_id }

/-- `HandlerEntry::is_system`. -/
def HandlerEntry.is_system (e : HandlerEntry) : Bool :=
  e.protection_level = ProtectionLevel.System

/-- Context identifier (`pub type ContextId = usize`). -/
abbrev ContextId := Nat

/-- A registration stored in the registry
(`HandlerRegistration` in `src/trap/infrastructure/registry.rs`).
The extra field `regSeq` is a ghost registration sequence number used only to
state ordering properties; no operation of the registry ever reads it. -/
structure HandlerRegistration where
  entry : HandlerEntry
  context_id : Option ContextId
  regSeq : Nat := 0

/-- A slot of the registry (`HandlerSlot`). -/
inductive HandlerSlot where
  | Empty
  | Occupied (reg : HandlerRegistration)

/-- `HandlerSlot::is_empty`. -/
def HandlerSlot.is_empty : HandlerSlot → Bool
  | .Empty => true
  | .Occupied _ => false

/-- `HandlerSlot::get_entry`. -/
def HandlerSlot.get_entry : HandlerSlot → Option HandlerEntry
  | .Empty => none
  | .Occupied reg => some reg.entry

/-- `HandlerSlot::get_registration`. -/
def HandlerSlot.get_registration : HandlerSlot → Option HandlerRegistration
  | .Empty => none
  | .Occupied reg => some reg

/-- `MAX_HANDLERS_PER_TYPE = 8`. -/
def MAX_HANDLERS_PER_TYPE : Nat := 8

/-- `TrapType::COUNT = 15` (the `Unknown` variant is not given a slot row). -/
def TRAP_TYPE_COUNT : Nat := 15

/-- One per-trap-type slot array of the registry (a fixed array of
`MAX_HANDLERS_PER_TYPE` slots). -/
abbrev Row := List HandlerSlot

/-- List of registrations held by the occupied slots of a row, in slot order
(all eight slots are scanned, empties skipped). -/
def occList (row : Row) : List HandlerRegistration :=
  row.filterMap HandlerSlot.get_registration

/-- The registration search loop of `HandlerRegistry::register_internal`
(and the identical loop of `register`): walks the slots at ascending index
`i`, tracking `insert_index` (initially `MAX_HANDLERS_PER_TYPE`, the "unset"
sentinel) and `occupied_count`.  An empty slot claims `insert_index` when it
is still unset; an occupied slot with strictly greater priority claims it
when it lies before the current value. -/
def registerScan (p : Nat) : Row → Nat → Nat → Nat → Nat × Nat
  | [], _, insert, occ => (insert, occ)
  | .Empty :: rest, i, insert, occ =>
      registerScan p rest (i + 1)
        (if insert = MAX_HANDLERS_PER_TYPE then i else insert) occ
  | .Occupied reg :: rest, i, insert, occ =>
      registerScan p rest (i + 1)
        (if reg.entry.priority > p ∧ i < insert then i else insert) (occ + 1)

/-- Effect of the shift-right loop of `register_internal`
(`for i in (insert..MAX-1).rev() { slots[i+1] = slots[i] }`) followed by the
write `slots[insert] = s`: the suffix moves right by one, the last slot's old
content is discarded. -/
def shiftInsertAt (row : Row) (i : Nat) (s : HandlerSlot) : Row :=
  row.take i ++ s :: (row.drop i).dropLast

/-- Effect of the shift-left loop of `unregister`
(`for j in i..MAX-1 { slots[j] = slots[j+1] }`) followed by the write
`slots[MAX-1] = Empty`: the element at `i` is dropped and an empty slot is
appended. -/
def removeSlotAt (row : Row) (i : Nat) : Row :=
  row.take i ++ row.drop (i + 1) ++ [HandlerSlot.Empty]

/-- `HandlerRegistry::register_internal`, acting on the row of the given trap
type.  Returns `some newRow` when the source returns `true` and `none` when
it returns `false` (row unchanged). -/
def register_internal (row : Row) (registration : HandlerRegistration) :
    Option Row :=
  let scanned := registerScan registration.entry.priority row 0
      MAX_HANDLERS_PER_TYPE 0
  let insert := scanned.1
  let occ := scanned.2
  if insert = MAX_HANDLERS_PER_TYPE then
    none
  else if (row.getD insert HandlerSlot.Empty).is_empty = false then
    if occ ≥ MAX_HANDLERS_PER_TYPE then
      none
    else
      some (shiftInsertAt row insert (HandlerSlot.Occupied registration))
  else
    some (row.set insert (HandlerSlot.Occupied registration))

/-- `HandlerRegistry::register` — the basic registration path.  Its inline
search loop is the same as `register_internal`'s; it stores the entry built
by `HandlerEntry::new` (protection `System`, registrar 0) with no context id.
The ghost sequence number `seq` is threaded in by the state machine below. -/
def register (row : Row) (handler : TrapHandler) (priority : Nat)
    (description : String) (seq : Nat) : Option Row :=
  register_internal row
    { entry := HandlerEntry.new handler priority description,
      context_id := none, regSeq := seq }

/-- The description search loop shared by `unregister` and
`unregister_secure`: first occupied slot whose entry's description matches,
together with its index. -/
def findDescAux (desc : String) : Row → Nat → Option (Nat × HandlerRegistration)
  | [], _ => none
  | .Empty :: rest, i => findDescAux desc rest (i + 1)
  | .Occupied reg :: rest, i =>
      if reg.entry.description = desc then some (i, reg)
      else findDescAux desc rest (i + 1)

/-- `HandlerRegistry::unregister`: removes the first entry whose description
matches; returns the updated row and whether a removal happened. -/
def unregister (row : Row) (desc : String) : Row × Bool :=
  match findDescAux desc row 0 with
  | none => (row, false)
  | some (i, _) => (removeSlotAt row i, true)

/-- Security errors of the secure unregistration path (`SecurityError`). -/
inductive SecurityError where
  | ProtectedHandler
  | InvalidRegistrar
  | SystemRequired
  | InternalError
deriving DecidableEq, Repr

/-- `HandlerRegistry::unregister_secure`: finds the first description match,
verifies ownership, and removes the entry on success.  `Except.ok (b, row)`
models `Ok(b)` with the (possibly updated) row; errors leave the row
unchanged. -/
def unregister_secure (row : Row) (desc : String) (registrar_id : RegistrarId) :
    Except SecurityError (Bool × Row) :=
  match findDescAux desc row 0 with
  | none => Except.ok (false, row)
  | some (i, reg) =>
      if reg.entry.is_system = true ∧ registrar_id ≠ SYSTEM_REGISTRAR_ID then
        Except.error SecurityError.ProtectedHandler
      else if reg.entry.is_system = false ∧ reg.entry.registrar_id ≠ registrar_id then
        Except.error SecurityError.InvalidRegistrar
      else
        Except.ok (true, removeSlotAt row i)

/-- The dispatch loop of `HandlerRegistry::dispatch`: slots are tried at
ascending index; the scan breaks at the first empty slot; `Handled` returns
immediately; `Pass` and `Failed(_)` continue.  Exhaustion yields
`Failed(NoHandler)`.  The third component is the instrumentation trace: the
descriptions of the handlers invoked, in invocation order. -/
def dispatchLoop : Row → TrapContext →
    TrapContext × TrapHandlerResult × List String
  | [], ctx => (ctx, TrapHandlerResult.Failed TrapError.NoHandler, [])
  | .Empty :: _, ctx => (ctx, TrapHandlerResult.Failed TrapError.NoHandler, [])
  | .Occupied reg :: rest, ctx =>
      let out := reg.entry.handler ctx
      match out.2 with
      | .Handled => (out.1, TrapHandlerResult.Handled, [reg.entry.description])
      | .Pass =>
          let next := dispatchLoop rest out.1
          (next.1, next.2.1, reg.entry.description :: next.2.2)
      | .Failed _ =>
          let next := dispatchLoop rest out.1
          (next.1, next.2.1, reg.entry.description :: next.2.2)

/-- `HandlerRegistry::dispatch` (result only). -/
def dispatch (row : Row) (ctx : TrapContext) : TrapHandlerResult :=
  (dispatchLoop row ctx).2.1

/-- `HandlerRegistry::handler_count`: counts occupied slots, stopping at the
first empty slot. -/
def handler_count : Row → Nat
  | [] => 0
  | .Empty :: _ => 0
  | .Occupied _ :: rest => 1 + handler_count rest

/-- The entries the dispatch loop scans: occupied slots up to the first empty
slot (dispatch breaks there). -/
def occEntriesScan : Row → List HandlerEntry
  | [] => []
  | .Empty :: _ => []
  | .Occupied reg :: rest => reg.entry :: occEntriesScan rest

/-- Modelled from the spec's dispatch sentence, for the refinement theorem:
"iterate the sorted list from index 0; call each handler; on `Handled` stop
and propagate `Handled`; on `Pass` continue to the next; on `Failed(err)` log
and continue to the next.  If the list is exhausted without a `Handled`
result, return `Failed(NoHandler)`."  The trace records the called handlers'
descriptions in call order. -/
def specDispatch : List HandlerEntry → TrapContext →
    TrapContext × TrapHandlerResult × List String
  | [], ctx => (ctx, TrapHandlerResult.Failed TrapError.NoHandler, [])
  | h :: rest, ctx =>
      let out := h.handler ctx
      match out.2 with
      | .Handled => (out.1, TrapHandlerResult.Handled, [h.description])
      | _ =>
          let next := specDispatch rest out.1
          (next.1, next.2.1, h.description :: next.2.2)

/-!  Bulk context teardown (`HandlerRegistry::unregister_context_secure`).  -/

/-- The ownership test of the bulk teardown loop: a `System` entry needs the
reserved system registrar id, a `User` entry needs its creator's id. -/
def can_remove (reg : HandlerRegistration) (rid : RegistrarId) : Bool :=
  if reg.entry.is_system then
    decide (rid = SYSTEM_REGISTRAR_ID)
  else
    decide (reg.entry.registrar_id = rid)

/-- The per-slot match test of the bulk teardown collection loop: occupied,
stored context id equal to the target, and removal permitted. -/
def slotCtxMatch (cid : ContextId) (rid : RegistrarId) (s : HandlerSlot) : Bool :=
  match s.get_registration with
  | some reg =>
      match reg.context_id with
      | some c => decide (c = cid) && can_remove reg rid
      | none => false
  | none => false

/-- The collection loop of `unregister_context_secure`: indices (ascending)
of slots whose registration matches the context id and passes the ownership
check, guarded by `removed_count < MAX_HANDLERS_PER_TYPE` as in the source. -/
def collectCtxIdxs (cid : ContextId) (rid : RegistrarId) :
    Row → Nat → Nat → List Nat
  | [], _, _ => []
  | s :: rest, i, cnt =>
      if slotCtxMatch cid rid s = true ∧ cnt < MAX_HANDLERS_PER_TYPE then
        i :: collectCtxIdxs cid rid rest (i + 1) (cnt + 1)
      else
        collectCtxIdxs cid rid rest (i + 1) cnt

/-- The removal phase of `unregister_context_secure`: the collected indices
are processed from highest to lowest, each by the same shift-left removal as
`unregister`. -/
def removeDescending (row : Row) (idxs : List Nat) : Row :=
  idxs.reverse.foldl removeSlotAt row

/-- Guard-free form of the collection loop, used to reason about it: the
ascending indices of the slots satisfying `P`. -/
def matchIdxs (P : HandlerSlot → Bool) : Row → Nat → List Nat
  | [], _ => []
  | s :: rest, i =>
      if P s = true then i :: matchIdxs P rest (i + 1)
      else matchIdxs P rest (i + 1)

/-- `unregister_context_secure` restricted to one trap type's row: the
updated row and the number of removed handlers. -/
def unregister_context_row (row : Row) (cid : ContextId) (rid : RegistrarId) :
    Row × Nat :=
  let idxs := collectCtxIdxs cid rid row 0 0
  (removeDescending row idxs, idxs.length)

/-- `HandlerRegistry::unregister_context_secure`: every trap type's row is
processed independently and the removal counts are summed (the source's
sequential `total_count` accumulation over `type_index in 0..TrapType::COUNT`). -/
def unregister_context_secure (slots : Fin TRAP_TYPE_COUNT → Row)
    (cid : ContextId) (rid : RegistrarId) : (Fin TRAP_TYPE_COUNT → Row) × Nat :=
  (fun t => (unregister_context_row (slots t) cid rid).1,
   ((List.finRange TRAP_TYPE_COUNT).map
      (fun t => (unregister_context_row (slots t) cid rid).2)).sum)

/-!  The registry state machine: every sequence of registrations and
unregistrations, used to state the reachable-state invariants.  -/

/-- Full registry state: one row per trap type, plus the ghost registration
sequence counter used to stamp `regSeq` (mirrors nothing in the source; the
operations never read it). -/
structure RegistryState where
  slots : Fin TRAP_TYPE_COUNT → Row
  nextSeq : Nat

/-- The registry operations of `registry.rs` (each acting through the public
functions `register_handler`, `register_handler_with_owner`,
`unregister_handler`, `unregister_handler_secure`,
`unregister_handlers_for_context_secure`). -/
inductive RegOp where
  | register (t : Fin TRAP_TYPE_COUNT) (handler : TrapHandler)
      (priority : Nat) (description : String)
  | register_with_owner (t : Fin TRAP_TYPE_COUNT) (handler : TrapHandler)
      (priority : Nat) (description : String) (prot : ProtectionLevel)
      (rid : RegistrarId) (cid : Option ContextId)
  | unregister (t : Fin TRAP_TYPE_COUNT) (description : String)
  | unregister_secure (t : Fin TRAP_TYPE_COUNT) (description : String)
      (rid : RegistrarId)
  | unregister_context_secure (cid : ContextId) (rid : RegistrarId)

/-- One registry operation applied to the state.  A failed operation leaves
the slots unchanged, exactly as the source's early returns do. -/
def applyOp (s : RegistryState) (op : RegOp) : RegistryState :=
  match op with
  | .register t h p d =>
      match register (s.slots t) h p d s.nextSeq with
      | some row => { slots := Function.update s.slots t row, nextSeq := s.nextSeq + 1 }
      | none => { s with nextSeq := s.nextSeq + 1 }
  | .register_with_owner t h p d prot rid cid =>
      match register_internal (s.slots t)
          { entry := HandlerEntry.new_with_protection h p d prot rid,
            context_id := cid, regSeq := s.nextSeq } with
      | some row => { slots := Function.update s.slots t row, nextSeq := s.nextSeq + 1 }
      | none => { s with nextSeq := s.nextSeq + 1 }
  | .unregister t d =>
      { s with slots := Function.update s.slots t (unregister (s.slots t) d).1 }
  | .unregister_secure t d rid =>
      match unregister_secure (s.slots t) d rid with
      | .ok out => { s with slots := Function.update s.slots t out.2 }
      | .error _ => s
  | .unregister_context_secure cid rid =>
      { s with slots := (unregister_context_secure s.slots cid rid).1 }

/-- The initial registry: every slot of every row empty
(`HandlerRegistry::new`). -/
def initState : RegistryState :=
  { slots := fun _ => List.replicate MAX_HANDLERS_PER_TYPE HandlerSlot.Empty,
    nextSeq := 0 }

/-- States reachable from the fresh registry by any sequence of
registrations and unregistrations. -/
inductive Reachable : RegistryState → Prop
  | init : Reachable initState
  | step {s : RegistryState} (h : Reachable s) (op : RegOp) :
      Reachable (applyOp s op)

/-- A row whose occupied slots form a contiguous block at the front: once an
empty slot appears, everything after it is empty. -/
def contiguous : Row → Bool
  | [] => true
  | .Occupied _ :: rest => contiguous rest
  | .Empty :: rest => rest.all HandlerSlot.is_empty

/-- A row in canonical shape: the occupied slots, then `m` empty slots. -/
def canon (os : List HandlerRegistration) (m : Nat) : Row :=
  os.map HandlerSlot.Occupied ++ List.replicate m HandlerSlot.Empty

/-- The ordering the registry maintains: ascending priority, ties broken by
registration order (the ghost sequence number). -/
def regLex (a b : HandlerRegistration) : Prop :=
  a.entry.priority < b.entry.priority ∨
    (a.entry.priority = b.entry.priority ∧ a.regSeq < b.regSeq)

/-- Insertion point of priority `p` into a registration list: the position
of the first element with strictly greater priority, or the length if none
(matching what the registration scan computes on a contiguous row). -/
def insertPos (p : Nat) : List HandlerRegistration → Nat
  | [] => 0
  | r :: rest => if r.entry.priority > p then 0 else insertPos p rest + 1

/-- Well-formedness of a row: full length, contiguous occupancy, and the
occupied registrations ordered by `regLex`. -/
def RowInv (row : Row) : Prop :=
  row.length = MAX_HANDLERS_PER_TYPE ∧ contiguous row = true ∧
    (occList row).Pairwise regLex

/-- Well-formedness of a registry state: every row well-formed and every
stored ghost sequence number below the counter. -/
def StateInv (s : RegistryState) : Prop :=
  ∀ t, RowInv (s.slots t) ∧
    ∀ reg ∈ occList (s.slots t), reg.regSeq < s.nextSeq

/-!  The public API layer (`src/trap/api.rs`).  -/

/-- `TrapApiError` (`src/trap/api.rs`). -/
inductive TrapApiError where
  | SystemNotInitialized
  | RegistrationFailed
  | HandlerNotFound
  | TooManyHandlers
  | StorageLocked
  | InvalidContextId
  | OperationNotAllowed
  | InternalError
  | ProtectedHandler
  | InvalidRegistrarId
  | SystemLevelRequired
deriving DecidableEq, Repr

/-- `register_trap_handler_secure`: checks initialization, then registers a
`User`-level entry owned by `registrar_id`.  Returns the API result and the
(possibly updated) row of the trap type. -/
def register_trap_handler_secure (initialized : Bool) (row : Row)
    (handler : TrapHandler) (priority : Nat) (description : String)
    (context_id : Option ContextId) (registrar_id : RegistrarId) (seq : Nat) :
    Except TrapApiError Unit × Row :=
  if initialized = false then
    (Except.error TrapApiError.SystemNotInitialized, row)
  else
    match register_internal row
        { entry := HandlerEntry.new_with_protection handler priority description
            ProtectionLevel.User registrar_id,
          context_id := context_id, regSeq := seq } with
    | some row' => (Except.ok (), row')
    | none => (Except.error TrapApiError.RegistrationFailed, row)

/-- `unregister_trap_handler_secure`: checks initialization, then translates
the secure unregistration outcome into the stable API error enumeration. -/
def unregister_trap_handler_secure (initialized : Bool) (row : Row)
    (description : String) (registrar_id : RegistrarId) :
    Except TrapApiError Unit × Row :=
  if initialized = false then
    (Except.error TrapApiError.SystemNotInitialized, row)
  else
    match unregister_secure row description registrar_id with
    | .ok (true, row') => (Except.ok (), row')
    | .ok (false, _) => (Except.error TrapApiError.HandlerNotFound, row)
    | .error .ProtectedHandler => (Except.error TrapApiError.ProtectedHandler, row)
    | .error .InvalidRegistrar => (Except.error TrapApiError.InvalidRegistrarId, row)
    | .error _ => (Except.error TrapApiError.InternalError, row)

/-!  Interrupt nesting (`src/trap/ds/context_manager.rs`).  -/

/-- Context management errors (`ContextError`). -/
inductive ContextError where
  | StackOverflow
  | StackUnderflow
  | InvalidContext
  | OutOfMemory
  | OperationNotAllowed
deriving DecidableEq, Repr

/-- The context manager's nesting state: the interrupt nesting counter
(`INTERRUPT_NEST_COUNT`) and the configured maximum nesting level.  The
interrupt stack bytes themselves carry no logical content here. -/
structure ContextMgr where
  nest : Nat
  max_nest_level : Nat

/-- `size_of::<TrapContext>()` on RV64: 32 general registers plus `sstatus`,
`sepc`, `scause`, `stval`, 8 bytes each. -/
def TRAP_CONTEXT_SIZE : Nat := 36 * 8

/-- `INTERRUPT_STACK_SIZE = 16 * 1024`. -/
def INTERRUPT_STACK_SIZE : Nat := 16 * 1024

/-- `ContextManager::DEFAULT_MAX_NEST_LEVEL = 8`. -/
def DEFAULT_MAX_NEST_LEVEL : Nat := 8

/-- `ContextManager::enter_interrupt`: the fetch-add followed by the
rollback on overflow nets to: fail (state unchanged) when the counter has
reached the maximum, otherwise increment and return the new level. -/
def enter_interrupt (s : ContextMgr) : Except ContextError (ContextMgr × Nat) :=
  if s.nest ≥ s.max_nest_level then
    Except.error ContextError.StackOverflow
  else
    Except.ok ({ s with nest := s.nest + 1 }, s.nest + 1)

/-- `ContextManager::exit_interrupt`: decrementing below zero reports
`StackUnderflow`. -/
def exit_interrupt (s : ContextMgr) : Except ContextError (ContextMgr × Nat) :=
  if s.nest = 0 then
    Except.error ContextError.StackUnderflow
  else
    Except.ok ({ s with nest := s.nest - 1 }, s.nest - 1)

/-- `ContextManager::save_context_for_interrupt`: enter the new nesting
level, then check that the context slot fits in the interrupt stack (on
failure the level is rolled back via `exit_interrupt`, netting an unchanged
state).  The returned context pointer carries no logical content; the
returned level does. -/
def save_context_for_interrupt (s : ContextMgr) :
    Except ContextError (ContextMgr × Nat) :=
  match enter_interrupt s with
  | .error e => Except.error e
  | .ok (s1, level) =>
      if level * TRAP_CONTEXT_SIZE + TRAP_CONTEXT_SIZE > INTERRUPT_STACK_SIZE then
        Except.error ContextError.StackOverflow
      else
        Except.ok (s1, level)

/-- `ContextManager::restore_context_from_interrupt`: decrement the nesting
level (the hardware register restore does not touch the counter). -/
def restore_context_from_interrupt (s : ContextMgr) :
    Except ContextError ContextMgr :=
  match exit_interrupt s with
  | .error e => Except.error e
  | .ok (s1, _) => Except.ok s1

/-!  Error subsystem (`src/trap/ds/error.rs`, `error_manager.rs`).  -/

/-- `ErrorLevel` with its `u8` representation values. -/
inductive ErrorLevel where
  | Fatal
  | Critical
  | Error
  | Warning
  | Info
deriving DecidableEq, Repr

/-- The `repr(u8)` value of an error level. -/
def ErrorLevel.toNat : ErrorLevel → Nat
  | .Fatal => 0
  | .Critical => 1
  | .Error => 2
  | .Warning => 3
  | .Info => 4

/-- `ErrorSource` with its `u8` representation values. -/
inductive ErrorSource where
  | Unknown
  | Interrupt
  | Memory
  | Process
  | FileSystem
  | Device
  | Network
  | Syscall
  | Power
  | Synchronization
  | Scheduler
deriving DecidableEq, Repr

/-- The `repr(u8)` value of an error source. -/
def ErrorSource.toNat : ErrorSource → Nat
  | .Unknown => 0
  | .Interrupt => 1
  | .Memory => 2
  | .Process => 3
  | .FileSystem => 4
  | .Device => 5
  | .Network => 6
  | .Syscall => 7
  | .Power => 8
  | .Synchronization => 9
  | .Scheduler => 10

/-- `ErrorCode`: a packed 32-bit value (source in bits 24-31, level in bits
16-23, numeric code in bits 0-15). -/
structure ErrorCode where
  value : Nat
deriving DecidableEq, Repr

/-- `ErrorCode::new` (the `code` argument is a `u16`, hence the mask). -/
def ErrorCode.new (source : ErrorSource) (level : ErrorLevel) (code : Nat) :
    ErrorCode :=
  ⟨(source.toNat <<< 24) ||| (level.toNat <<< 16) ||| (code % 65536)⟩

/-- `ErrorCode::source`: decode bits 24-31, unmapped values become
`Unknown`. -/
def ErrorCode.source (c : ErrorCode) : ErrorSource :=
  match (c.value >>> 24) % 256 with
  | 1 => .Interrupt
  | 2 => .Memory
  | 3 => .Process
  | 4 => .FileSystem
  | 5 => .Device
  | 6 => .Network
  | 7 => .Syscall
  | 8 => .Power
  | 9 => .Synchronization
  | 10 => .Scheduler
  | _ => .Unknown

/-- `ErrorCode::level`: decode bits 16-23, unmapped values become `Error`. -/
def ErrorCode.level (c : ErrorCode) : ErrorLevel :=
  match (c.value >>> 16) % 256 with
  | 0 => .Fatal
  | 1 => .Critical
  | 2 => .Error
  | 3 => .Warning
  | 4 => .Info
  | _ => .Error

/-- `ErrorCode::is_fatal`. -/
def ErrorCode.is_fatal (c : ErrorCode) : Bool :=
  decide (c.level = ErrorLevel.Fatal)

/-- `SystemError`. -/
structure SystemError where
  code : ErrorCode
  address : Option Nat
  instruction_pointer : Nat
  timestamp : Nat

/-- `ErrorResult`. -/
inductive ErrorResult where
  | Handled
  | Partial
  | Unhandled
  | Ignored
deriving DecidableEq, Repr

/-- Error handler function type (`fn(&SystemError) -> ErrorResult`). -/
abbrev ErrorHandler := SystemError → ErrorResult

/-- `ErrorHandlerEntry`. -/
structure ErrorHandlerEntry where
  handler : ErrorHandler
  priority : Nat
  description : String
  source : Option ErrorSource
  level : Option ErrorLevel

/-- `ErrorHandlerEntry::matches`: both filters, when present, must agree. -/
def ErrorHandlerEntry.matches (h : ErrorHandlerEntry) (e : SystemError) : Bool :=
  (match h.source with
   | some src => decide (e.code.source = src)
   | none => true) &&
  (match h.level with
   | some lvl => decide (e.code.level = lvl)
   | none => true)

/-- `ErrorLogEntry`. -/
structure ErrorLogEntry where
  error : SystemError
  handled : Bool
  result : ErrorResult

/-- `ErrorLog::MAX_ENTRIES = 32`. -/
def MAX_LOG_ENTRIES : Nat := 32

/-- `ErrorLog`: circular buffer with a write cursor and a monotonic total
count. -/
structure ErrorLog where
  entries : List (Option ErrorLogEntry)
  current : Nat
  count : Nat

/-- `ErrorLog::new`. -/
def ErrorLog.new : ErrorLog :=
  { entries := List.replicate MAX_LOG_ENTRIES none, current := 0, count := 0 }

/-- `ErrorLog::log`: write at the cursor, advance it modulo the capacity,
bump the total count. -/
def ErrorLog.log (l : ErrorLog) (error : SystemError) (handled : Bool)
    (result : ErrorResult) : ErrorLog :=
  let index := l.current
  { entries := l.entries.set index (some ⟨error, handled, result⟩),
    current := (l.current + 1) % MAX_LOG_ENTRIES,
    count := l.count + 1 }

/-- `ErrorLog::print_recent(n)` as the list of entries it prints, in print
order (the source prints each `Some` entry it indexes; `None` entries are
skipped silently by its `if let`). -/
def ErrorLog.print_recent_list (l : ErrorLog) (n : Nat) : List ErrorLogEntry :=
  let total := l.count
  let to_print := if total < n then total else n
  if to_print = 0 then []
  else
    let start_idx :=
      if total ≤ MAX_LOG_ENTRIES then
        if to_print > total then 0 else total - to_print
      else
        if to_print ≥ MAX_LOG_ENTRIES then 0
        else (l.current + MAX_LOG_ENTRIES - to_print) % MAX_LOG_ENTRIES
    (List.range to_print).filterMap
      (fun i => l.entries.getD ((start_idx + i) % MAX_LOG_ENTRIES) none)

/-- `MAX_ERROR_HANDLERS = 16`. -/
def MAX_ERROR_HANDLERS : Nat := 16

/-- `ErrorManager`. -/
structure ErrorManager where
  handlers : List (Option ErrorHandlerEntry)
  handler_count : Nat
  log : ErrorLog
  panic_mode : Bool

/-- `ErrorManager::new`. -/
def ErrorManager.new : ErrorManager :=
  { handlers := List.replicate MAX_ERROR_HANDLERS none, handler_count := 0,
    log := ErrorLog.new, panic_mode := false }

/-- Instrumentation events of `handle_error`, in program order: the panic
latch store, and each handler invocation. -/
inductive ErrEvent where
  | latch
  | invoke (description : String)
deriving DecidableEq, Repr

/-- The handler scan loop of `ErrorManager::handle_error`, threading the
`final_result` and `handled` flags exactly as the source does and recording
each invocation.  `Handled` stops the scan; `Partial` marks handled and
continues; `Ignored` updates the remembered result and continues;
`Unhandled` continues unchanged. -/
def errScan (e : SystemError) :
    List (Option ErrorHandlerEntry) → ErrorResult → Bool →
    ErrorResult × Bool × List ErrEvent
  | [], final_result, handled => (final_result, handled, [])
  | none :: rest, fr, hd => errScan e rest fr hd
  | some h :: rest, fr, hd =>
      if h.matches e = true then
        match h.handler e with
        | .Handled => (ErrorResult.Handled, true, [ErrEvent.invoke h.description])
        | .Partial =>
            let next := errScan e rest ErrorResult.Partial true
            (next.1, next.2.1, ErrEvent.invoke h.description :: next.2.2)
        | .Ignored =>
            let next := errScan e rest ErrorResult.Ignored hd
            (next.1, next.2.1, ErrEvent.invoke h.description :: next.2.2)
        | .Unhandled =>
            let next := errScan e rest fr hd
            (next.1, next.2.1, ErrEvent.invoke h.description :: next.2.2)
      else errScan e rest fr hd

/-- `ErrorManager::handle_error`.  Returns the updated manager, the returned
`ErrorResult`, whether the source halts the system afterwards (fatal and
unhandled: the shutdown call / infinite spin), and the event trace.  In
panic mode the error is logged as `Ignored` and nothing is dispatched;
otherwise a `Fatal` error latches panic mode before the scan. -/
def ErrorManager.handle_error (m : ErrorManager) (e : SystemError) :
    ErrorManager × ErrorResult × Bool × List ErrEvent :=
  if m.panic_mode = true then
    ({ m with log := m.log.log e false ErrorResult.Ignored },
     ErrorResult.Ignored, false, [])
  else
    let latchEvents : List ErrEvent :=
      if e.code.is_fatal = true then [ErrEvent.latch] else []
    let pm := if e.code.is_fatal = true then true else m.panic_mode
    let scan := errScan e (m.handlers.take m.handler_count) ErrorResult.Unhandled false
    let final_result := scan.1
    let handled := scan.2.1
    ({ m with panic_mode := pm, log := m.log.log e handled final_result },
     final_result, e.code.is_fatal && !handled, latchEvents ++ scan.2.2)

/-- `ErrorManager::is_panic_mode`. -/
def ErrorManager.is_panic_mode (m : ErrorManager) : Bool := m.panic_mode

/-- `ErrorManager::reset_panic_mode`. -/
def ErrorManager.reset_panic_mode (m : ErrorManager) : ErrorManager :=
  { m with panic_mode := false }

/-!  Concrete inputs used by the witnesses.  -/

/-- A handler that passes every trap on, unchanged. -/
def hPass : TrapHandler := fun ctx => (ctx, TrapHandlerResult.Pass)

/-- A handler that handles every trap. -/
def hHandle : TrapHandler := fun ctx => (ctx, TrapHandlerResult.Handled)

/-- A sample `User`-level registration owned by registrar 5, context 1. -/
def sampleUserReg : HandlerRegistration :=
  { entry := HandlerEntry.new_with_protection hPass 10 "user-h"
      ProtectionLevel.User 5,
    context_id := some 1, regSeq := 0 }

/-- A sample `User`-level registration owned by registrar 5, context 2. -/
def sampleUserReg2 : HandlerRegistration :=
  { entry := HandlerEntry.new_with_protection hPass 20 "user-h2"
      ProtectionLevel.User 5,
    context_id := some 2, regSeq := 1 }

/-- A sample `System`-level registration (kernel-owned, no context). -/
def sampleSysReg : HandlerRegistration :=
  { entry := HandlerEntry.new hPass 30 "sys-h", context_id := none, regSeq := 2 }

/-- A row holding the three sample registrations. -/
def sampleRow : Row := canon [sampleUserReg, sampleUserReg2, sampleSysReg] 5

/-- A registry whose first trap type's row is `sampleRow`, all others empty. -/
def sampleSlots : Fin TRAP_TYPE_COUNT → Row := fun t =>
  if t.val = 0 then sampleRow
  else List.replicate MAX_HANDLERS_PER_TYPE HandlerSlot.Empty

/-- A full row of eight distinct `System` registrations. -/
def fullRow : Row :=
  canon ((List.range MAX_HANDLERS_PER_TYPE).map
    (fun i => { entry := HandlerEntry.new hPass (10 * (i + 1)) (toString i),
                context_id := none, regSeq := i })) 0

/-- A fatal system error (memory source, code 1). -/
def fatalErr : SystemError :=
  { code := ErrorCode.new ErrorSource.Memory ErrorLevel.Fatal 1,
    address := none, instruction_pointer := 0, timestamp := 0 }

/-- A plain (non-fatal) system error with a given timestamp, used to fill
the error log. -/
def mkErr (ts : Nat) : SystemError :=
  { code := ErrorCode.new ErrorSource.Unknown ErrorLevel.Error 0,
    address := none, instruction_pointer := 0, timestamp := ts }

/-- The error log after logging `MAX_LOG_ENTRIES + 5 = 37` errors with
timestamps 1..37, in order. -/
def log37 : ErrorLog :=
  (List.range 37).foldl (fun l i => l.log (mkErr (i + 1)) false ErrorResult.Unhandled)
    ErrorLog.new

/-- The first trap type's index (TimerInterrupt). -/
def t0 : Fin TRAP_TYPE_COUNT := ⟨0, by decide⟩

/-- A small reachable registry: two registrations on the same trap type, the
higher-priority-number one first. -/
def wState : RegistryState :=
  applyOp (applyOp initState (RegOp.register t0 hPass 20 "w1"))
    (RegOp.register t0 hPass 10 "w2")

/-- An empty error manager (no registered handlers). -/
def emptyMgr : ErrorManager := ErrorManager.new

/-- An empty row. -/
def emptyRow : Row := List.replicate MAX_HANDLERS_PER_TYPE HandlerSlot.Empty

/-- The row after basic-registering "wc10" into the empty row. -/
def c10Row : Row :=
  canon [{ entry := HandlerEntry.new hPass 10 "wc10", context_id := none,
           regSeq := 0 }] 7

/-!  ## Lemmas: canonical rows  -/

theorem occList_nil : occList [] = [] := rfl

theorem occList_cons_occupied (reg : HandlerRegistration) (rest : Row) :
    occList (HandlerSlot.Occupied reg :: rest) = reg :: occList rest := rfl

theorem occList_cons_empty (rest : Row) :
    occList (HandlerSlot.Empty :: rest) = occList rest := rfl

theorem occList_append (l1 l2 : Row) :
    occList (l1 ++ l2) = occList l1 ++ occList l2 :=
  List.filterMap_append l1 l2 _

theorem occList_replicate_empty (m : Nat) :
    occList (List.replicate m HandlerSlot.Empty) = [] := by
  induction m with
  | zero => rfl
  | succ k ih => simpa [List.replicate_succ, occList_cons_empty] using ih

theorem occList_map_occupied (os : List HandlerRegistration) :
    occList (os.map HandlerSlot.Occupied) = os := by
  induction os with
  | nil => rfl
  | cons r rest ih => simpa [occList_cons_occupied] using ih

theorem occList_canon (os : List HandlerRegistration) (m : Nat) :
    occList (canon os m) = os := by
  simp [canon, occList_append, occList_map_occupied, occList_replicate_empty]

theorem canon_length (os : List HandlerRegistration) (m : Nat) :
    (canon os m).length = os.length + m := by
  simp [canon]

theorem all_empty_eq_replicate (l : Row)
    (h : l.all HandlerSlot.is_empty = true) :
    l = List.replicate l.length HandlerSlot.Empty := by
  induction l with
  | nil => rfl
  | cons s rest ih =>
      rw [List.all_cons, Bool.and_eq_true] at h
      cases s with
      | Empty => simpa [List.replicate_succ] using ih h.2
      | Occupied reg => simp [HandlerSlot.is_empty] at h

theorem contiguous_eq_canon (row : Row) (h : contiguous row = true) :
    row = canon (occList row) (row.length - (occList row).length) := by
  induction row with
  | nil => rfl
  | cons s rest ih =>
      cases s with
      | Occupied reg =>
          rw [contiguous] at h
          have hr := ih h
          simp only [occList_cons_occupied, List.length_cons, Nat.succ_sub_succ]
          calc HandlerSlot.Occupied reg :: rest
              = HandlerSlot.Occupied reg ::
                  canon (occList rest) (rest.length - (occList rest).length) := by
                rw [← hr]
            _ = canon (reg :: occList rest) (rest.length - (occList rest).length) := by
                simp [canon]
      | Empty =>
          rw [contiguous] at h
          have hrest := all_empty_eq_replicate rest h
          have hocc : occList rest = [] := by
            rw [hrest]; exact occList_replicate_empty _
          simp only [occList_cons_empty, hocc, List.length_cons, List.length_nil,
            Nat.sub_zero, canon, List.map_nil, List.nil_append]
          rw [List.replicate_succ]
          exact congrArg _ (by simpa [hocc] using hrest)

theorem contiguous_canon (os : List HandlerRegistration) (m : Nat) :
    contiguous (canon os m) = true := by
  induction os with
  | nil =>
      cases m with
      | zero => rfl
      | succ k =>
          show contiguous (HandlerSlot.Empty :: List.replicate k HandlerSlot.Empty) = true
          rw [contiguous]
          simp [List.all_replicate, HandlerSlot.is_empty]
  | cons r rest ih =>
      show contiguous (HandlerSlot.Occupied r :: canon rest m) = true
      rw [contiguous]; exact ih

theorem handler_count_canon (os : List HandlerRegistration) (m : Nat) :
    handler_count (canon os m) = os.length := by
  induction os with
  | nil =>
      cases m with
      | zero => rfl
      | succ k => rfl
  | cons r rest ih =>
      show handler_count (HandlerSlot.Occupied r :: canon rest m) = rest.length + 1
      rw [handler_count, ih]; omega

theorem occEntriesScan_canon (os : List HandlerRegistration) (m : Nat) :
    occEntriesScan (canon os m) = os.map (fun r => r.entry) := by
  induction os with
  | nil => cases m with
    | zero => rfl
    | succ k => rfl
  | cons r rest ih =>
      show occEntriesScan (HandlerSlot.Occupied r :: canon rest m) = _
      rw [occEntriesScan, ih]; rfl

/-!  ## Lemmas: the registration scan  -/

theorem insertPos_le_length (p : Nat) (os : List HandlerRegistration) :
    insertPos p os ≤ os.length := by
  induction os with
  | nil => simp [insertPos]
  | cons r rest ih =>
      rw [insertPos]
      by_cases h : r.entry.priority > p
      · simp [h]
      · simp [h]; omega

theorem registerScan_set (p : Nat) (l : Row) :
    ∀ i ins occ, ins < i → ins < MAX_HANDLERS_PER_TYPE →
      registerScan p l i ins occ = (ins, occ + (occList l).length) := by
  induction l with
  | nil => intro i ins occ _ _; simp [registerScan, occList_nil]
  | cons s rest ih =>
      intro i ins occ hlt hmax
      cases s with
      | Empty =>
          rw [registerScan, if_neg (by omega), occList_cons_empty]
          exact ih (i + 1) ins occ (by omega) hmax
      | Occupied reg =>
          rw [registerScan, if_neg (by intro hc; omega), occList_cons_occupied]
          rw [ih (i + 1) ins (occ + 1) (by omega) hmax]
          simp; omega

theorem registerScan_empties (p : Nat) (m : Nat) :
    ∀ i occ, (1 ≤ m → i < MAX_HANDLERS_PER_TYPE) →
      registerScan p (List.replicate m HandlerSlot.Empty) i MAX_HANDLERS_PER_TYPE occ =
        (if m = 0 then MAX_HANDLERS_PER_TYPE else i, occ) := by
  induction m with
  | zero => intro i occ _; simp [registerScan]
  | succ k ih =>
      intro i occ hi
      rw [List.replicate_succ, registerScan, if_pos rfl]
      rw [registerScan_set p _ (i + 1) i occ (by omega) (hi (by omega))]
      simp [occList_replicate_empty]

theorem registerScan_canon_aux (p : Nat) (os : List HandlerRegistration) (m : Nat) :
    ∀ i occ, i + os.length + m ≤ MAX_HANDLERS_PER_TYPE →
      registerScan p (canon os m) i MAX_HANDLERS_PER_TYPE occ =
        (if insertPos p os < os.length then i + insertPos p os
         else if m = 0 then MAX_HANDLERS_PER_TYPE else i + os.length,
         occ + os.length) := by
  induction os with
  | nil =>
      intro i occ hle
      have : canon [] m = List.replicate m HandlerSlot.Empty := by simp [canon]
      rw [this, registerScan_empties p m i occ (fun h1 => by omega)]
      simp [insertPos]
  | cons r rest ih =>
      intro i occ hle
      have hstep : canon (r :: rest) m =
          HandlerSlot.Occupied r :: canon rest m := by simp [canon]
      rw [hstep, registerScan]
      by_cases hp : r.entry.priority > p
      · rw [if_pos ⟨hp, by simp only [List.length_cons] at hle; omega⟩]
        rw [registerScan_set p _ (i + 1) i (occ + 1) (by omega)
          (by simp only [List.length_cons] at hle; omega)]
        rw [occList_canon]
        have hz : insertPos p (r :: rest) = 0 := by simp [insertPos, hp]
        simp only [hz, List.length_cons]
        rw [if_pos (by omega), Prod.mk.injEq]
        exact ⟨by omega, by omega⟩
      · rw [if_neg (by intro hc; exact hp hc.1)]
        rw [ih (i + 1) (occ + 1) (by simp only [List.length_cons] at hle; omega)]
        have hip : insertPos p (r :: rest) = insertPos p rest + 1 := by
          simp [insertPos, hp]
        simp only [hip, List.length_cons, Nat.add_lt_add_iff_right]
        split_ifs with h1 h2 <;>
          (rw [Prod.mk.injEq]; exact ⟨by omega, by omega⟩)

theorem registerScan_canon (p : Nat) (os : List HandlerRegistration) (m : Nat)
    (h : os.length + m = MAX_HANDLERS_PER_TYPE) :
    registerScan p (canon os m) 0 MAX_HANDLERS_PER_TYPE 0 =
      (insertPos p os, os.length) := by
  rw [registerScan_canon_aux p os m 0 0 (by omega)]
  have hle := insertPos_le_length p os
  by_cases hlt : insertPos p os < os.length
  · simp [hlt]
  · have heq : insertPos p os = os.length := by omega
    rw [if_neg hlt]
    by_cases hm : m = 0
    · have : os.length = MAX_HANDLERS_PER_TYPE := by omega
      simp [hm, heq, this]
    · simp [hm, heq]

/-!  ## Lemmas: registration on canonical rows  -/

theorem canon_getD_occupied (os : List HandlerRegistration) (m j : Nat)
    (h : j < os.length) :
    ((canon os m).getD j HandlerSlot.Empty).is_empty = false := by
  induction os generalizing j with
  | nil => simp at h
  | cons r rest ih =>
      cases j with
      | zero => rfl
      | succ k =>
          have : canon (r :: rest) m = HandlerSlot.Occupied r :: canon rest m := by
            simp [canon]
          rw [this]
          simpa using ih k (by simpa using h)

theorem canon_getD_first_empty (os : List HandlerRegistration) (m : Nat)
    (h : 1 ≤ m) :
    (canon os m).getD os.length HandlerSlot.Empty = HandlerSlot.Empty := by
  induction os with
  | nil =>
      cases m with
      | zero => omega
      | succ k => rfl
  | cons r rest ih =>
      have : canon (r :: rest) m = HandlerSlot.Occupied r :: canon rest m := by
        simp [canon]
      rw [this]
      simpa using ih

theorem set_append_at_length (l1 : Row) (x : HandlerSlot) (l2 : Row)
    (y : HandlerSlot) :
    (l1 ++ x :: l2).set l1.length y = l1 ++ y :: l2 := by
  induction l1 with
  | nil => rfl
  | cons s rest ih => simp [List.set, ih]

theorem canon_set_at_length (os : List HandlerRegistration) (m : Nat)
    (reg : HandlerRegistration) (h : 1 ≤ m) :
    (canon os m).set os.length (HandlerSlot.Occupied reg) =
      canon (os ++ [reg]) (m - 1) := by
  obtain ⟨k, rfl⟩ : ∃ k, m = k + 1 := ⟨m - 1, by omega⟩
  have h1 : canon os (k + 1) =
      os.map HandlerSlot.Occupied ++ HandlerSlot.Empty ::
        List.replicate k HandlerSlot.Empty := by
    simp [canon, List.replicate_succ]
  rw [h1]
  have h2 := set_append_at_length (os.map HandlerSlot.Occupied) HandlerSlot.Empty
      (List.replicate k HandlerSlot.Empty) (HandlerSlot.Occupied reg)
  rw [List.length_map] at h2
  rw [h2]
  simp [canon]

theorem canon_take (os : List HandlerRegistration) (m j : Nat)
    (h : j ≤ os.length) :
    (canon os m).take j = (os.take j).map HandlerSlot.Occupied := by
  rw [canon, List.take_append_of_le_length (by simpa using h), List.map_take]

theorem canon_drop (os : List HandlerRegistration) (m j : Nat)
    (h : j ≤ os.length) :
    (canon os m).drop j =
      (os.drop j).map HandlerSlot.Occupied ++
        List.replicate m HandlerSlot.Empty := by
  rw [canon, List.drop_append_of_le_length (by simpa using h), List.map_drop]

theorem canon_shiftInsertAt (os : List HandlerRegistration) (m j : Nat)
    (reg : HandlerRegistration) (hj : j ≤ os.length) (hm : 1 ≤ m) :
    shiftInsertAt (canon os m) j (HandlerSlot.Occupied reg) =
      canon (os.take j ++ reg :: os.drop j) (m - 1) := by
  obtain ⟨k, rfl⟩ : ∃ k, m = k + 1 := ⟨m - 1, by omega⟩
  rw [shiftInsertAt, canon_take os _ j hj, canon_drop os _ j hj]
  have hdl : ((os.drop j).map HandlerSlot.Occupied ++
      List.replicate (k + 1) HandlerSlot.Empty).dropLast =
      (os.drop j).map HandlerSlot.Occupied ++
        List.replicate k HandlerSlot.Empty := by
    rw [List.replicate_succ' k HandlerSlot.Empty, ← List.append_assoc,
      List.dropLast_concat]
  rw [hdl]
  simp [canon]

theorem register_internal_canon (os : List HandlerRegistration) (m : Nat)
    (reg : HandlerRegistration) (h : os.length + m = MAX_HANDLERS_PER_TYPE) :
    register_internal (canon os m) reg =
      if os.length = MAX_HANDLERS_PER_TYPE then none
      else some (canon
        (os.take (insertPos reg.entry.priority os) ++
          reg :: os.drop (insertPos reg.entry.priority os)) (m - 1)) := by
  have hscan := registerScan_canon reg.entry.priority os m h
  have hle := insertPos_le_length reg.entry.priority os
  rw [register_internal]
  simp only [hscan]
  by_cases hfull : os.length = MAX_HANDLERS_PER_TYPE
  · rw [if_pos hfull]
    by_cases hpos : insertPos reg.entry.priority os = MAX_HANDLERS_PER_TYPE
    · rw [if_pos hpos]
    · rw [if_neg hpos]
      have hocc : ((canon os m).getD (insertPos reg.entry.priority os)
          HandlerSlot.Empty).is_empty = false :=
        canon_getD_occupied os m _ (by omega)
      rw [if_pos hocc, if_pos (by omega)]
  · rw [if_neg hfull]
    have hm : 1 ≤ m := by omega
    have hne : insertPos reg.entry.priority os ≠ MAX_HANDLERS_PER_TYPE := by
      omega
    rw [if_neg hne]
    by_cases hlt : insertPos reg.entry.priority os < os.length
    · have hocc := canon_getD_occupied os m _ hlt
      rw [if_pos hocc, if_neg (by omega)]
      rw [canon_shiftInsertAt os m _ reg (by omega) hm]
    · have heq : insertPos reg.entry.priority os = os.length := by omega
      have hempty := canon_getD_first_empty os m hm
      rw [heq, hempty]
      rw [if_neg (by simp [HandlerSlot.is_empty])]
      rw [canon_set_at_length os m reg hm]
      rw [List.take_length, List.drop_length]

/-!  ## Lemmas: priority ordering of insertions  -/

theorem insertPos_take_le (p : Nat) (os : List HandlerRegistration) :
    ∀ a ∈ os.take (insertPos p os), a.entry.priority ≤ p := by
  induction os with
  | nil => intro a ha; simp at ha
  | cons r rest ih =>
      intro a ha
      rw [insertPos] at ha
      by_cases hp : r.entry.priority > p
      · rw [if_pos hp] at ha; simp at ha
      · rw [if_neg hp, List.take_succ_cons] at ha
        rcases List.mem_cons.mp ha with h1 | h2
        · subst h1; omega
        · exact ih a h2

theorem insertPos_drop_gt (p : Nat) (os : List HandlerRegistration)
    (hs : os.Pairwise regLex) :
    ∀ b ∈ os.drop (insertPos p os), p < b.entry.priority := by
  induction os with
  | nil => intro b hb; simp at hb
  | cons r rest ih =>
      intro b hb
      rw [insertPos] at hb
      rcases List.pairwise_cons.mp hs with ⟨hr, hrest⟩
      by_cases hp : r.entry.priority > p
      · rw [if_pos hp, List.drop_zero] at hb
        rcases List.mem_cons.mp hb with h1 | h2
        · subst h1; omega
        · rcases hr b h2 with hlt | ⟨heq, _⟩
          · omega
          · omega
      · rw [if_neg hp, List.drop_succ_cons] at hb
        exact ih hrest b hb

theorem pairwise_insert_at_pos (os : List HandlerRegistration)
    (reg : HandlerRegistration) (hs : os.Pairwise regLex)
    (hseq : ∀ a ∈ os, a.regSeq < reg.regSeq) :
    (os.take (insertPos reg.entry.priority os) ++
      reg :: os.drop (insertPos reg.entry.priority os)).Pairwise regLex := by
  set j := insertPos reg.entry.priority os with hj
  have hsplit : (os.take j ++ os.drop j).Pairwise regLex := by
    rw [List.take_append_drop]; exact hs
  rcases List.pairwise_append.mp hsplit with ⟨htake, hdrop, hcross⟩
  apply List.pairwise_append.mpr
  refine ⟨htake, ?_, ?_⟩
  · apply List.pairwise_cons.mpr
    refine ⟨?_, hdrop⟩
    intro b hb
    exact Or.inl (insertPos_drop_gt reg.entry.priority os hs b hb)
  · intro a ha b hb
    rcases List.mem_cons.mp hb with heqb | hb2
    · rw [heqb]
      have hple := insertPos_take_le reg.entry.priority os a ha
      rcases Nat.lt_or_ge a.entry.priority reg.entry.priority with hlt | hge
      · exact Or.inl hlt
      · exact Or.inr ⟨by omega, hseq a (List.take_subset j os ha)⟩
    · exact hcross a ha b hb2

/-!  ## Lemmas: removal  -/

theorem removeSlotAt_canon (os : List HandlerRegistration) (m j : Nat)
    (hj : j < os.length) :
    removeSlotAt (canon os m) j =
      canon (os.take j ++ os.drop (j + 1)) (m + 1) := by
  rw [removeSlotAt, canon_take os m j (by omega), canon_drop os m (j + 1) (by omega)]
  simp [canon, List.replicate_succ' m HandlerSlot.Empty]

theorem canon_getD_ge_empty (os : List HandlerRegistration) (m j : Nat)
    (h : os.length ≤ j) :
    (canon os m).getD j HandlerSlot.Empty = HandlerSlot.Empty := by
  induction os generalizing j with
  | nil =>
      show (List.replicate m HandlerSlot.Empty).getD j HandlerSlot.Empty = _
      induction m generalizing j with
      | zero => rfl
      | succ k ihm =>
          cases j with
          | zero => rfl
          | succ j0 => rw [List.replicate_succ]; simpa using ihm j0 (by omega)
  | cons r rest ih =>
      cases j with
      | zero => simp at h
      | succ j0 =>
          have hc : canon (r :: rest) m = HandlerSlot.Occupied r :: canon rest m := by
            simp [canon]
          rw [hc]
          simpa using ih j0 (by simpa using h)

theorem findDescAux_shift (desc : String) (row : Row) :
    ∀ i, findDescAux desc row (i + 1) =
      (findDescAux desc row i).map (fun x => (x.1 + 1, x.2)) := by
  induction row with
  | nil => intro i; rfl
  | cons s rest ih =>
      intro i
      cases s with
      | Empty => rw [findDescAux, findDescAux, ih]
      | Occupied reg =>
          rw [findDescAux, findDescAux]
          by_cases h : reg.entry.description = desc
          · rw [if_pos h, if_pos h]; rfl
          · rw [if_neg h, if_neg h, ih]

theorem findDescAux_some_split (row : Row) (desc : String) (j : Nat)
    (reg : HandlerRegistration) (h : findDescAux desc row 0 = some (j, reg)) :
    ∃ l1 l2, row = l1 ++ HandlerSlot.Occupied reg :: l2 ∧ l1.length = j ∧
      (∀ r ∈ occList l1, r.entry.description ≠ desc) ∧
      reg.entry.description = desc := by
  induction row generalizing j with
  | nil => simp [findDescAux] at h
  | cons s rest ih =>
      cases s with
      | Empty =>
          rw [findDescAux, findDescAux_shift] at h
          cases hr : findDescAux desc rest 0 with
          | none => rw [hr] at h; simp at h
          | some x =>
              obtain ⟨j0, r0⟩ := x
              rw [hr] at h
              simp only [Option.map_some'] at h
              have h1 : j0 + 1 = j := congrArg Prod.fst (Option.some.inj h)
              have h2 : r0 = reg := congrArg Prod.snd (Option.some.inj h)
              subst h2
              subst h1
              rcases ih j0 hr with ⟨l1, l2, hrow, hlen, hnone, hdesc⟩
              exact ⟨HandlerSlot.Empty :: l1, l2, by simp [hrow],
                by simp [List.length_cons, hlen],
                by simpa [occList_cons_empty] using hnone, hdesc⟩
      | Occupied r =>
          rw [findDescAux] at h
          by_cases hd : r.entry.description = desc
          · rw [if_pos hd] at h
            have h1 : (0 : Nat) = j := congrArg Prod.fst (Option.some.inj h)
            have h2 : r = reg := congrArg Prod.snd (Option.some.inj h)
            subst h2
            subst h1
            exact ⟨[], rest, rfl, rfl, by simp [occList_nil], hd⟩
          · rw [if_neg hd, findDescAux_shift] at h
            cases hr : findDescAux desc rest 0 with
            | none => rw [hr] at h; simp at h
            | some x =>
                obtain ⟨j0, r0⟩ := x
                rw [hr] at h
                simp only [Option.map_some'] at h
                have h1 : j0 + 1 = j := congrArg Prod.fst (Option.some.inj h)
                have h2 : r0 = reg := congrArg Prod.snd (Option.some.inj h)
                subst h2
                subst h1
                rcases ih j0 hr with ⟨l1, l2, hrow, hlen, hnone, hdesc⟩
                refine ⟨HandlerSlot.Occupied r :: l1, l2, by simp [hrow],
                  by simp [List.length_cons, hlen], ?_, hdesc⟩
                intro a ha
                rw [occList_cons_occupied] at ha
                rcases List.mem_cons.mp ha with heqa | ha2
                · subst heqa; exact hd
                · exact hnone a ha2

theorem findDescAux_none_iff (row : Row) (desc : String) :
    ∀ i, (findDescAux desc row i = none ↔
      ∀ r ∈ occList row, r.entry.description ≠ desc) := by
  induction row with
  | nil => intro i; simp [findDescAux, occList_nil]
  | cons s rest ih =>
      intro i
      cases s with
      | Empty => rw [findDescAux, occList_cons_empty]; exact ih (i + 1)
      | Occupied reg =>
          rw [findDescAux, occList_cons_occupied]
          by_cases hd : reg.entry.description = desc
          · rw [if_pos hd]
            simp only [List.mem_cons]
            constructor
            · intro hc; cases hc
            · intro hall; exact absurd hd (hall reg (Or.inl rfl))
          · rw [if_neg hd]
            rw [ih (i + 1)]
            simp only [List.mem_cons]
            constructor
            · intro hall r hr
              rcases hr with rfl | hr2
              · exact hd
              · exact hall r hr2
            · intro hall r hr; exact hall r (Or.inr hr)

theorem removeSlotAt_at_split (l1 : Row) (x : HandlerSlot) (l2 : Row) :
    removeSlotAt (l1 ++ x :: l2) l1.length = l1 ++ l2 ++ [HandlerSlot.Empty] := by
  rw [removeSlotAt]
  congr 1
  congr 1
  · rw [List.take_append_of_le_length (le_refl _), List.take_length]
  · have : l1 ++ x :: l2 = (l1 ++ [x]) ++ l2 := by simp
    rw [this]
    have hlen : l1.length + 1 = (l1 ++ [x]).length := by simp
    rw [hlen, List.drop_left]

/-!  ## Lemmas: bulk context teardown  -/

theorem collectCtxIdxs_eq_matchIdxs (cid : ContextId) (rid : RegistrarId)
    (row : Row) : ∀ i cnt, cnt + row.length ≤ MAX_HANDLERS_PER_TYPE →
    collectCtxIdxs cid rid row i cnt = matchIdxs (slotCtxMatch cid rid) row i := by
  induction row with
  | nil => intro i cnt _; rfl
  | cons s rest ih =>
      intro i cnt hle
      rw [collectCtxIdxs, matchIdxs]
      by_cases hp : slotCtxMatch cid rid s = true
      · rw [if_pos ⟨hp, by simp only [List.length_cons] at hle; omega⟩, if_pos hp]
        rw [ih (i + 1) (cnt + 1) (by simp only [List.length_cons] at hle; omega)]
      · rw [if_neg (by intro hc; exact hp hc.1), if_neg hp]
        rw [ih (i + 1) cnt (by simp only [List.length_cons] at hle; omega)]

theorem matchIdxs_shift (P : HandlerSlot → Bool) (row : Row) :
    ∀ i, matchIdxs P row (i + 1) = (matchIdxs P row i).map (fun k => k + 1) := by
  induction row with
  | nil => intro i; rfl
  | cons s rest ih =>
      intro i
      rw [matchIdxs, matchIdxs]
      by_cases hp : P s = true
      · rw [if_pos hp, if_pos hp, List.map_cons, ih]
      · rw [if_neg hp, if_neg hp, ih]

theorem removeSlotAt_cons_succ (s : HandlerSlot) (l : Row) (j : Nat) :
    removeSlotAt (s :: l) (j + 1) = s :: removeSlotAt l j := by
  simp [removeSlotAt]

theorem foldl_removeSlotAt_shift (s : HandlerSlot) :
    ∀ (js : List Nat) (l : Row),
      (js.map (fun k => k + 1)).foldl removeSlotAt (s :: l) =
        s :: js.foldl removeSlotAt l := by
  intro js
  induction js with
  | nil => intro l; rfl
  | cons j rest ih =>
      intro l
      rw [List.map_cons, List.foldl_cons, List.foldl_cons,
        removeSlotAt_cons_succ]
      exact ih (removeSlotAt l j)

theorem matchIdxs_length_countP (P : HandlerSlot → Bool) (row : Row) :
    ∀ i, (matchIdxs P row i).length = row.countP P := by
  induction row with
  | nil => intro i; rfl
  | cons s rest ih =>
      intro i
      rw [matchIdxs, List.countP_cons]
      by_cases hp : P s = true
      · rw [if_pos hp, hp, List.length_cons, ih]
        simp
      · rw [if_neg hp]
        have : P s = false := by
          cases h : P s
          · rfl
          · exact absurd h hp
        rw [this, ih]
        simp

theorem removeDescending_matchIdxs (P : HandlerSlot → Bool) (row : Row) :
    removeDescending row (matchIdxs P row 0) =
      row.filter (fun s => !(P s)) ++
        List.replicate (matchIdxs P row 0).length HandlerSlot.Empty := by
  induction row with
  | nil => rfl
  | cons s rest ih =>
      rw [matchIdxs]
      by_cases hp : P s = true
      · rw [if_pos hp]
        rw [matchIdxs_shift P rest 0]
        rw [removeDescending, List.reverse_cons, List.foldl_append,
          List.reverse_map, foldl_removeSlotAt_shift s _ rest]
        have hfold : (matchIdxs P rest 0).reverse.foldl removeSlotAt rest =
            removeDescending rest (matchIdxs P rest 0) := rfl
        rw [hfold, ih]
        rw [List.foldl_cons, List.foldl_nil]
        have hrm : removeSlotAt
            (s :: (rest.filter (fun x => !(P x)) ++
              List.replicate (matchIdxs P rest 0).length HandlerSlot.Empty)) 0 =
            rest.filter (fun x => !(P x)) ++
              List.replicate (matchIdxs P rest 0).length HandlerSlot.Empty ++
              [HandlerSlot.Empty] := by
          simp [removeSlotAt]
        rw [hrm]
        have hfs : (s :: rest).filter (fun x => !(P x)) =
            rest.filter (fun x => !(P x)) := by
          rw [List.filter_cons, hp]
          simp
        rw [hfs]
        rw [List.length_cons, List.length_map]
        rw [List.replicate_succ' _ HandlerSlot.Empty, ← List.append_assoc]
      · rw [if_neg hp]
        have hps : P s = false := by
          cases h : P s
          · rfl
          · exact absurd h hp
        rw [matchIdxs_shift P rest 0]
        rw [removeDescending, List.reverse_map,
          foldl_removeSlotAt_shift s _ rest]
        have hfold : (matchIdxs P rest 0).reverse.foldl removeSlotAt rest =
            removeDescending rest (matchIdxs P rest 0) := rfl
        rw [hfold, ih]
        have hfs : (s :: rest).filter (fun x => !(P x)) =
            s :: rest.filter (fun x => !(P x)) := by
          rw [List.filter_cons, hps]
          simp
        rw [hfs, List.length_map, List.cons_append]

theorem occList_filter (row : Row) (q : HandlerSlot → Bool) :
    occList (row.filter q) =
      (occList row).filter (fun reg => q (HandlerSlot.Occupied reg)) := by
  induction row with
  | nil => rfl
  | cons s rest ih =>
      cases s with
      | Empty =>
          rw [List.filter_cons, occList_cons_empty]
          by_cases hq : q HandlerSlot.Empty = true
          · rw [hq]; simpa [occList_cons_empty] using ih
          · have : q HandlerSlot.Empty = false := by
              cases h : q HandlerSlot.Empty
              · rfl
              · exact absurd h hq
            rw [this]; simpa using ih
      | Occupied reg =>
          rw [List.filter_cons, occList_cons_occupied, List.filter_cons]
          by_cases hq : q (HandlerSlot.Occupied reg) = true
          · rw [hq]
            simp only [if_pos trivial, occList_cons_occupied, ih]
          · have hf : q (HandlerSlot.Occupied reg) = false := by
              cases h : q (HandlerSlot.Occupied reg)
              · rfl
              · exact absurd h hq
            rw [hf]
            simpa using ih

theorem countP_occList (row : Row) (P : HandlerSlot → Bool)
    (hPe : P HandlerSlot.Empty = false) :
    row.countP P =
      (occList row).countP (fun reg => P (HandlerSlot.Occupied reg)) := by
  induction row with
  | nil => rfl
  | cons s rest ih =>
      cases s with
      | Empty =>
          rw [List.countP_cons, hPe, occList_cons_empty, ih]
          simp
      | Occupied reg =>
          rw [List.countP_cons, occList_cons_occupied, List.countP_cons, ih]

theorem unregister_context_row_eq (row : Row) (cid : ContextId)
    (rid : RegistrarId) (hlen : row.length ≤ MAX_HANDLERS_PER_TYPE) :
    unregister_context_row row cid rid =
      (row.filter (fun s => !(slotCtxMatch cid rid s)) ++
        List.replicate (row.countP (slotCtxMatch cid rid)) HandlerSlot.Empty,
       row.countP (slotCtxMatch cid rid)) := by
  rw [unregister_context_row]
  rw [collectCtxIdxs_eq_matchIdxs cid rid row 0 0 (by omega)]
  rw [removeDescending_matchIdxs, matchIdxs_length_countP]

/-!  ## Lemmas: invariant preservation  -/

theorem occList_length_le (row : Row) : (occList row).length ≤ row.length :=
  List.length_filterMap_le HandlerSlot.get_registration row

theorem rowInv_canon (row : Row) (hinv : RowInv row) :
    ∃ os m, row = canon os m ∧ os.length + m = MAX_HANDLERS_PER_TYPE ∧
      os.Pairwise regLex ∧ occList row = os := by
  rcases hinv with ⟨hlen, hcont, hpair⟩
  refine ⟨occList row, row.length - (occList row).length,
    contiguous_eq_canon row hcont, ?_, hpair, rfl⟩
  have := occList_length_le row
  omega

theorem register_internal_preserves (row : Row) (reg : HandlerRegistration)
    (hinv : RowInv row)
    (hsq : ∀ a ∈ occList row, a.regSeq < reg.regSeq) :
    ∀ row', register_internal row reg = some row' →
      RowInv row' ∧ ∀ a ∈ occList row', a.regSeq < reg.regSeq + 1 := by
  intro row' hres
  rcases rowInv_canon row hinv with ⟨os, m, hcanon, hsum, hpair, hocc⟩
  rw [hcanon, register_internal_canon os m reg hsum] at hres
  by_cases hfull : os.length = MAX_HANDLERS_PER_TYPE
  · rw [if_pos hfull] at hres; cases hres
  · rw [if_neg hfull] at hres
    have hm : 1 ≤ m := by omega
    set j := insertPos reg.entry.priority os with hj
    have hjle : j ≤ os.length := insertPos_le_length reg.entry.priority os
    have hrow' : row' = canon (os.take j ++ reg :: os.drop j) (m - 1) :=
      (Option.some.inj hres).symm
    have hocc' : occList row' = os.take j ++ reg :: os.drop j := by
      rw [hrow', occList_canon]
    have hlen' : (os.take j ++ reg :: os.drop j).length = os.length + 1 := by
      rw [List.length_append, List.length_take, List.length_cons,
        List.length_drop]
      omega
    refine ⟨⟨?_, ?_, ?_⟩, ?_⟩
    · rw [hrow', canon_length, hlen']; omega
    · rw [hrow']; exact contiguous_canon _ _
    · rw [hocc']
      exact pairwise_insert_at_pos os reg hpair (by rw [← hocc]; exact hsq)
    · intro a ha
      rw [hocc'] at ha
      rcases List.mem_append.mp ha with h1 | h2
      · have : a ∈ os := List.take_subset j os h1
        have := hsq a (by rw [hocc]; exact this)
        omega
      · rcases List.mem_cons.mp h2 with heq | h3
        · subst heq; omega
        · have : a ∈ os := List.drop_subset j os h3
          have := hsq a (by rw [hocc]; exact this)
          omega

theorem getD_append_at_length (l1 : Row) (x : HandlerSlot) (l2 : Row) :
    (l1 ++ x :: l2).getD l1.length HandlerSlot.Empty = x := by
  induction l1 with
  | nil => rfl
  | cons s rest ih => simpa using ih

theorem findDescAux_index_lt (row : Row) (desc : String) (j : Nat)
    (reg : HandlerRegistration) (os : List HandlerRegistration) (m : Nat)
    (hcanon : row = canon os m)
    (h : findDescAux desc row 0 = some (j, reg)) : j < os.length := by
  rcases findDescAux_some_split row desc j reg h with ⟨l1, l2, hrow, hlen, _, _⟩
  by_contra hge
  have hEmpty : row.getD j HandlerSlot.Empty = HandlerSlot.Empty := by
    rw [hcanon]; exact canon_getD_ge_empty os m j (by omega)
  have hOcc : row.getD j HandlerSlot.Empty = HandlerSlot.Occupied reg := by
    rw [hrow, ← hlen]; exact getD_append_at_length l1 _ l2
  rw [hOcc] at hEmpty
  cases hEmpty

theorem removeSlotAt_preserves (row : Row) (j : Nat)
    (hinv : RowInv row) (os : List HandlerRegistration) (m : Nat)
    (hcanon : row = canon os m) (hsum : os.length + m = MAX_HANDLERS_PER_TYPE)
    (hpair : os.Pairwise regLex) (hj : j < os.length) :
    RowInv (removeSlotAt row j) ∧
      ∀ a ∈ occList (removeSlotAt row j), a ∈ occList row := by
  have hres : removeSlotAt row j = canon (os.take j ++ os.drop (j + 1)) (m + 1) := by
    rw [hcanon]; exact removeSlotAt_canon os m j hj
  have hero : os.take j ++ os.drop (j + 1) = os.eraseIdx j :=
    (List.eraseIdx_eq_take_drop_succ os j).symm
  have hsub : List.Sublist (os.take j ++ os.drop (j + 1)) os := by
    rw [hero]; exact List.eraseIdx_sublist os j
  refine ⟨⟨?_, ?_, ?_⟩, ?_⟩
  · rw [hres, canon_length, hero, List.length_eraseIdx_of_lt hj]
    omega
  · rw [hres]; exact contiguous_canon _ _
  · rw [hres, occList_canon]
    exact hpair.sublist hsub
  · intro a ha
    rw [hres, occList_canon] at ha
    have : a ∈ os := hsub.subset ha
    rw [hcanon, occList_canon]
    exact this

theorem unregister_preserves (row : Row) (desc : String) (hinv : RowInv row) :
    RowInv (unregister row desc).1 ∧
      ∀ a ∈ occList (unregister row desc).1, a ∈ occList row := by
  rcases rowInv_canon row hinv with ⟨os, m, hcanon, hsum, hpair, hocc⟩
  rw [unregister]
  cases hfind : findDescAux desc row 0 with
  | none => exact ⟨hinv, fun a ha => ha⟩
  | some x =>
      obtain ⟨j, reg⟩ := x
      have hj := findDescAux_index_lt row desc j reg os m hcanon hfind
      exact removeSlotAt_preserves row j hinv os m hcanon hsum hpair hj

theorem unregister_secure_preserves (row : Row) (desc : String)
    (rid : RegistrarId) (hinv : RowInv row) :
    ∀ b row', unregister_secure row desc rid = Except.ok (b, row') →
      RowInv row' ∧ ∀ a ∈ occList row', a ∈ occList row := by
  intro b row' hres
  rcases rowInv_canon row hinv with ⟨os, m, hcanon, hsum, hpair, hocc⟩
  rw [unregister_secure] at hres
  split at hres
  · have heq : row = row' := congrArg Prod.snd (Except.ok.inj hres)
    rw [← heq]
    exact ⟨hinv, fun a ha => ha⟩
  · rename_i j reg hfind
    split at hres
    · cases hres
    · split at hres
      · cases hres
      · have hrow' : removeSlotAt row j = row' :=
          congrArg Prod.snd (Except.ok.inj hres)
        rw [← hrow']
        have hj := findDescAux_index_lt row desc j reg os m hcanon hfind
        exact removeSlotAt_preserves row j hinv os m hcanon hsum hpair hj

theorem length_filter_not_add_countP (os : List HandlerRegistration)
    (q : HandlerRegistration → Bool) :
    (os.filter (fun r => !(q r))).length + os.countP q = os.length := by
  induction os with
  | nil => rfl
  | cons r rest ih =>
      rw [List.filter_cons, List.countP_cons]
      cases hq : q r
      · simp [hq]
        omega
      · simp [hq]
        omega

theorem canon_filter (os : List HandlerRegistration) (m : Nat)
    (q : HandlerSlot → Bool) (hq : q HandlerSlot.Empty = true) :
    (canon os m).filter q =
      canon (os.filter (fun r => q (HandlerSlot.Occupied r))) m := by
  rw [canon, canon, List.filter_append]
  congr 1
  · induction os with
    | nil => rfl
    | cons r rest ih =>
        rw [List.map_cons, List.filter_cons, List.filter_cons]
        cases hr : q (HandlerSlot.Occupied r)
        · simpa using ih
        · simpa using ih
  · induction m with
    | zero => rfl
    | succ k ih =>
        rw [List.replicate_succ, List.filter_cons, hq]
        simpa using ih

theorem unregister_context_row_preserves (row : Row) (cid : ContextId)
    (rid : RegistrarId) (hinv : RowInv row) :
    RowInv (unregister_context_row row cid rid).1 ∧
      ∀ a ∈ occList (unregister_context_row row cid rid).1, a ∈ occList row := by
  rcases rowInv_canon row hinv with ⟨os, m, hcanon, hsum, hpair, hocc⟩
  have hlen8 : row.length ≤ MAX_HANDLERS_PER_TYPE := le_of_eq hinv.1
  rw [unregister_context_row_eq row cid rid hlen8]
  set P := slotCtxMatch cid rid with hP
  have hPe : P HandlerSlot.Empty = false := rfl
  have hfilter : row.filter (fun s => !(P s)) =
      canon (os.filter (fun r => !(P (HandlerSlot.Occupied r)))) m := by
    rw [hcanon]
    exact canon_filter os m _ (by rw [hPe]; rfl)
  have hcnt : row.countP P =
      os.countP (fun r => P (HandlerSlot.Occupied r)) := by
    rw [hcanon]
    rw [countP_occList _ _ hPe, occList_canon]
  constructor
  · refine ⟨?_, ?_, ?_⟩
    · show (row.filter (fun s => !(P s)) ++
        List.replicate (row.countP P) HandlerSlot.Empty).length = _
      rw [hfilter, hcnt, List.length_append, canon_length,
        List.length_replicate]
      have := length_filter_not_add_countP os
        (fun r => P (HandlerSlot.Occupied r))
      omega
    · show contiguous (row.filter (fun s => !(P s)) ++
        List.replicate (row.countP P) HandlerSlot.Empty) = true
      rw [hfilter]
      have : canon (os.filter (fun r => !(P (HandlerSlot.Occupied r)))) m ++
          List.replicate (row.countP P) HandlerSlot.Empty =
          canon (os.filter (fun r => !(P (HandlerSlot.Occupied r))))
            (m + row.countP P) := by
        rw [canon, canon, List.append_assoc, List.replicate_add]
      rw [this]
      exact contiguous_canon _ _
    · show (occList (row.filter (fun s => !(P s)) ++
        List.replicate (row.countP P) HandlerSlot.Empty)).Pairwise regLex
      rw [occList_append, occList_replicate_empty, List.append_nil,
        hfilter, occList_canon]
      exact hpair.sublist (List.filter_sublist os)
  · intro a ha
    show a ∈ occList row
    rw [occList_append, occList_replicate_empty, List.append_nil,
      hfilter, occList_canon] at ha
    have : a ∈ os := (List.filter_sublist os).subset ha
    rw [hcanon, occList_canon]
    exact this

theorem stateInv_init : StateInv initState := by
  intro t
  constructor
  · refine ⟨by simp [initState, MAX_HANDLERS_PER_TYPE], ?_, ?_⟩
    · show contiguous (List.replicate MAX_HANDLERS_PER_TYPE HandlerSlot.Empty) = true
      have : (List.replicate MAX_HANDLERS_PER_TYPE HandlerSlot.Empty) =
          canon [] MAX_HANDLERS_PER_TYPE := by simp [canon]
      rw [this]
      exact contiguous_canon _ _
    · show (occList (List.replicate MAX_HANDLERS_PER_TYPE HandlerSlot.Empty)).Pairwise regLex
      rw [occList_replicate_empty]
      exact List.Pairwise.nil
  · intro reg hreg
    rw [show (initState.slots t) =
      List.replicate MAX_HANDLERS_PER_TYPE HandlerSlot.Empty from rfl,
      occList_replicate_empty] at hreg
    cases hreg

theorem stateInv_bump (s : RegistryState) (h : StateInv s) :
    StateInv { s with nextSeq := s.nextSeq + 1 } := by
  intro t
  show RowInv (s.slots t) ∧
    ∀ a ∈ occList (s.slots t), a.regSeq < s.nextSeq + 1
  exact ⟨(h t).1, fun a ha => by have := (h t).2 a ha; omega⟩

theorem stateInv_update_reg (s : RegistryState) (t : Fin TRAP_TYPE_COUNT)
    (row : Row) (h : StateInv s) (hrow : RowInv row)
    (hseq : ∀ a ∈ occList row, a.regSeq < s.nextSeq + 1) :
    StateInv { slots := Function.update s.slots t row,
               nextSeq := s.nextSeq + 1 } := by
  intro t'
  show RowInv (Function.update s.slots t row t') ∧
    ∀ a ∈ occList (Function.update s.slots t row t'), a.regSeq < s.nextSeq + 1
  by_cases ht : t' = t
  · subst ht
    rw [Function.update_same]
    exact ⟨hrow, hseq⟩
  · rw [Function.update_noteq ht]
    exact ⟨(h t').1, fun a ha => by have := (h t').2 a ha; omega⟩

theorem stateInv_update_keep (s : RegistryState) (t : Fin TRAP_TYPE_COUNT)
    (row : Row) (h : StateInv s) (hrow : RowInv row)
    (hsub : ∀ a ∈ occList row, a ∈ occList (s.slots t)) :
    StateInv { s with slots := Function.update s.slots t row } := by
  intro t'
  show RowInv (Function.update s.slots t row t') ∧
    ∀ a ∈ occList (Function.update s.slots t row t'), a.regSeq < s.nextSeq
  by_cases ht : t' = t
  · subst ht
    rw [Function.update_same]
    exact ⟨hrow, fun a ha => (h t').2 a (hsub a ha)⟩
  · rw [Function.update_noteq ht]
    exact h t'

theorem stateInv_update_all (s : RegistryState) (f : Fin TRAP_TYPE_COUNT → Row)
    (h : StateInv s) (hrow : ∀ t, RowInv (f t))
    (hsub : ∀ t, ∀ a ∈ occList (f t), a ∈ occList (s.slots t)) :
    StateInv { s with slots := f } := by
  intro t
  show RowInv (f t) ∧ ∀ a ∈ occList (f t), a.regSeq < s.nextSeq
  exact ⟨hrow t, fun a ha => (h t).2 a (hsub t a ha)⟩

theorem stateInv_applyOp (s : RegistryState) (op : RegOp) (h : StateInv s) :
    StateInv (applyOp s op) := by
  cases op with
  | register t hh p d =>
      rw [applyOp]
      cases hreg : register (s.slots t) hh p d s.nextSeq with
      | none => exact stateInv_bump s h
      | some row =>
          have hpr := register_internal_preserves (s.slots t)
            { entry := HandlerEntry.new hh p d, context_id := none,
              regSeq := s.nextSeq } (h t).1
            (fun a ha => (h t).2 a ha) row hreg
          exact stateInv_update_reg s t row h hpr.1 hpr.2
  | register_with_owner t hh p d prot rid cid =>
      rw [applyOp]
      cases hreg : register_internal (s.slots t)
          { entry := HandlerEntry.new_with_protection hh p d prot rid,
            context_id := cid, regSeq := s.nextSeq } with
      | none => exact stateInv_bump s h
      | some row =>
          have hpr := register_internal_preserves (s.slots t)
            { entry := HandlerEntry.new_with_protection hh p d prot rid,
              context_id := cid, regSeq := s.nextSeq } (h t).1
            (fun a ha => (h t).2 a ha) row hreg
          exact stateInv_update_reg s t row h hpr.1 hpr.2
  | unregister t d =>
      rw [applyOp]
      have hpr := unregister_preserves (s.slots t) d (h t).1
      exact stateInv_update_keep s t _ h hpr.1 hpr.2
  | unregister_secure t d rid =>
      rw [applyOp]
      cases hres : unregister_secure (s.slots t) d rid with
      | error e => exact h
      | ok out =>
          obtain ⟨b, row⟩ := out
          have hpr := unregister_secure_preserves (s.slots t) d rid (h t).1
            b row hres
          exact stateInv_update_keep s t row h hpr.1 hpr.2
  | unregister_context_secure cid rid =>
      rw [applyOp]
      apply stateInv_update_all s _ h
      · intro t
        exact (unregister_context_row_preserves (s.slots t) cid rid (h t).1).1
      · intro t
        exact (unregister_context_row_preserves (s.slots t) cid rid (h t).1).2

theorem reachable_stateInv (s : RegistryState) (h : Reachable s) : StateInv s := by
  induction h with
  | init => exact stateInv_init
  | step hR op ih => exact stateInv_applyOp _ op ih

/-!  ## Lemmas: dispatch  -/

theorem dispatchLoop_eq_spec : ∀ (row : Row) (ctx : TrapContext),
    dispatchLoop row ctx = specDispatch (occEntriesScan row) ctx := by
  intro row
  induction row with
  | nil => intro ctx; rfl
  | cons s rest ih =>
      intro ctx
      cases s with
      | Empty => rfl
      | Occupied reg =>
          show dispatchLoop (HandlerSlot.Occupied reg :: rest) ctx =
            specDispatch (reg.entry :: occEntriesScan rest) ctx
          simp only [dispatchLoop, specDispatch]
          cases hres : (reg.entry.handler ctx).2 with
          | Handled => rfl
          | Pass => rw [ih]
          | Failed err => rw [ih]

theorem specDispatch_result : ∀ (hs : List HandlerEntry) (ctx : TrapContext),
    (specDispatch hs ctx).2.1 = TrapHandlerResult.Handled ∨
      ((specDispatch hs ctx).2.1 = TrapHandlerResult.Failed TrapError.NoHandler ∧
       (specDispatch hs ctx).2.2 = hs.map (fun h => h.description)) := by
  intro hs
  induction hs with
  | nil => intro ctx; right; exact ⟨rfl, rfl⟩
  | cons h rest ih =>
      intro ctx
      simp only [specDispatch]
      cases hres : (h.handler ctx).2 with
      | Handled => left; rfl
      | Pass =>
          rcases ih (h.handler ctx).1 with h1 | ⟨h2, h3⟩
          · left; exact h1
          · right
            refine ⟨h2, ?_⟩
            show h.description :: (specDispatch rest (h.handler ctx).1).2.2 = _
            rw [h3, List.map_cons]
      | Failed err =>
          rcases ih (h.handler ctx).1 with h1 | ⟨h2, h3⟩
          · left; exact h1
          · right
            refine ⟨h2, ?_⟩
            show h.description :: (specDispatch rest (h.handler ctx).1).2.2 = _
            rw [h3, List.map_cons]

theorem specDispatch_trace_take : ∀ (hs : List HandlerEntry) (ctx : TrapContext),
    ∃ k, (specDispatch hs ctx).2.2 =
      (hs.map (fun h => h.description)).take k := by
  intro hs
  induction hs with
  | nil => intro ctx; exact ⟨0, rfl⟩
  | cons h rest ih =>
      intro ctx
      simp only [specDispatch]
      cases hres : (h.handler ctx).2 with
      | Handled =>
          refine ⟨1, ?_⟩
          rw [List.map_cons]
          rfl
      | Pass =>
          rcases ih (h.handler ctx).1 with ⟨k, hk⟩
          refine ⟨k + 1, ?_⟩
          show h.description :: (specDispatch rest (h.handler ctx).1).2.2 = _
          rw [hk, List.map_cons, List.take_succ_cons]
      | Failed err =>
          rcases ih (h.handler ctx).1 with ⟨k, hk⟩
          refine ⟨k + 1, ?_⟩
          show h.description :: (specDispatch rest (h.handler ctx).1).2.2 = _
          rw [hk, List.map_cons, List.take_succ_cons]

/-!  ## Claim theorems  -/

/-- C1: for every sequence of handler registrations and unregistrations on
the handler registry, after each operation the occupied slots of every trap
type's list are in non-decreasing order of priority, and among entries of
equal priority the earlier-registered entry (smaller ghost sequence number)
precedes the later one. -/
theorem registry_rows_sorted_by_priority (s : RegistryState)
    (hs : Reachable s) (t : Fin TRAP_TYPE_COUNT) :
    (occList (s.slots t)).Pairwise (fun a b =>
      a.entry.priority < b.entry.priority ∨
        (a.entry.priority = b.entry.priority ∧ a.regSeq < b.regSeq)) :=
  ((reachable_stateInv s hs t).1).2.2

/-- Witness for C1: a concrete two-registration sequence, checked on the
resulting state. -/
theorem registry_rows_sorted_by_priority_witness :
    (occList (wState.slots t0)).Pairwise (fun a b =>
      a.entry.priority < b.entry.priority ∨
        (a.entry.priority = b.entry.priority ∧ a.regSeq < b.regSeq)) :=
  registry_rows_sorted_by_priority wState
    (Reachable.step (Reachable.step Reachable.init (RegOp.register t0 hPass 20 "w1"))
      (RegOp.register t0 hPass 10 "w2")) t0

/-- C2: dispatch tries the handlers of a trap type's list from index 0 in
list order (the trace is always a prefix of the scanned descriptions), it
behaves exactly like the spec's iteration (`Handled` stops and propagates,
`Pass` and `Failed` continue), and when no handler returns `Handled` it
returns `Failed(NoHandler)` after invoking every scanned handler. -/
theorem dispatch_follows_list_order (row : Row) (ctx : TrapContext) :
    dispatchLoop row ctx = specDispatch (occEntriesScan row) ctx ∧
    ((dispatchLoop row ctx).2.1 = TrapHandlerResult.Handled ∨
      ((dispatchLoop row ctx).2.1 = TrapHandlerResult.Failed TrapError.NoHandler ∧
       (dispatchLoop row ctx).2.2 =
         (occEntriesScan row).map (fun h => h.description))) ∧
    ∃ k, (dispatchLoop row ctx).2.2 =
      ((occEntriesScan row).map (fun h => h.description)).take k := by
  refine ⟨dispatchLoop_eq_spec row ctx, ?_, ?_⟩
  · rw [dispatchLoop_eq_spec row ctx]
    exact specDispatch_result (occEntriesScan row) ctx
  · rw [dispatchLoop_eq_spec row ctx]
    exact specDispatch_trace_take (occEntriesScan row) ctx

/-- C9: in every reachable registry state the occupied slots of each trap
type's row form a contiguous block at the front, so `handler_count` (which
stops at the first empty slot) counts every registered handler, and
`dispatch` (which also stops at the first empty slot) either returns
`Handled` or invokes every registered handler of the row before returning
`Failed(NoHandler)`. -/
theorem registry_occupied_slots_contiguous (s : RegistryState)
    (hs : Reachable s) (t : Fin TRAP_TYPE_COUNT) :
    contiguous (s.slots t) = true ∧
    handler_count (s.slots t) = (occList (s.slots t)).length ∧
    ∀ ctx, (dispatchLoop (s.slots t) ctx).2.1 = TrapHandlerResult.Handled ∨
      ((dispatchLoop (s.slots t) ctx).2.1 =
          TrapHandlerResult.Failed TrapError.NoHandler ∧
       (dispatchLoop (s.slots t) ctx).2.2 =
         (occList (s.slots t)).map (fun r => r.entry.description)) := by
  have hinv := (reachable_stateInv s hs t).1
  rcases rowInv_canon _ hinv with ⟨os, m, hcanon, hsum, hpair, hocc⟩
  refine ⟨?_, ?_, ?_⟩
  · rw [hcanon]; exact contiguous_canon os m
  · rw [hcanon, handler_count_canon, occList_canon]
  · intro ctx
    rw [hcanon, dispatchLoop_eq_spec, occEntriesScan_canon, occList_canon]
    rcases specDispatch_result (os.map (fun r => r.entry)) ctx with h1 | ⟨h2, h3⟩
    · left; exact h1
    · right
      refine ⟨h2, ?_⟩
      rw [h3, List.map_map]
      rfl

/-- Witness for C9: the concrete two-registration state. -/
theorem registry_occupied_slots_contiguous_witness :
    contiguous (wState.slots t0) = true ∧
    handler_count (wState.slots t0) = (occList (wState.slots t0)).length ∧
    ∀ ctx, (dispatchLoop (wState.slots t0) ctx).2.1 = TrapHandlerResult.Handled ∨
      ((dispatchLoop (wState.slots t0) ctx).2.1 =
          TrapHandlerResult.Failed TrapError.NoHandler ∧
       (dispatchLoop (wState.slots t0) ctx).2.2 =
         (occList (wState.slots t0)).map (fun r => r.entry.description)) :=
  registry_occupied_slots_contiguous wState
    (Reachable.step (Reachable.step Reachable.init (RegOp.register t0 hPass 20 "w1"))
      (RegOp.register t0 hPass 10 "w2")) t0

/-- C6 counterexample: with "user-h" already registered for the trap type,
the secure API accepts a second registration with the same trap type and the
same description (it does not return `RegistrationFailed`), and both copies
are stored. -/
theorem duplicate_description_registration_accepted :
    (register_trap_handler_secure true sampleRow hPass 10 "user-h" none 9 7).1 =
      Except.ok () ∧
    ((occList (register_trap_handler_secure true sampleRow hPass 10 "user-h"
        none 9 7).2).map (fun r => r.entry.description)) =
      ["user-h", "user-h", "user-h2", "sys-h"] := by
  constructor
  · rfl
  · rfl

/-- C6 amended: registration is rejected if and only if the trap type's row
is already full; registering a second handler with the same trap type and
description is accepted while capacity remains (there is no duplicate
check). -/
theorem registration_fails_iff_row_full (row : Row) (reg : HandlerRegistration)
    (hlen : row.length = MAX_HANDLERS_PER_TYPE)
    (hcont : contiguous row = true) :
    register_internal row reg = none ↔
      (occList row).length = MAX_HANDLERS_PER_TYPE := by
  have hle := occList_length_le row
  have hsum : (occList row).length + (row.length - (occList row).length) =
      MAX_HANDLERS_PER_TYPE := by omega
  have hcanon := contiguous_eq_canon row hcont
  constructor
  · intro hnone
    by_contra hne
    rw [hcanon, register_internal_canon _ _ reg hsum, if_neg hne] at hnone
    cases hnone
  · intro hfull
    rw [hcanon, register_internal_canon _ _ reg hsum, if_pos hfull]

/-- Witness for the amended C6 theorem: a full row rejects registration. -/
theorem registration_fails_iff_row_full_witness :
    (fullRow.length = MAX_HANDLERS_PER_TYPE ∧ contiguous fullRow = true) ∧
    (register_internal fullRow sampleUserReg = none ↔
      (occList fullRow).length = MAX_HANDLERS_PER_TYPE) :=
  ⟨⟨rfl, rfl⟩, registration_fails_iff_row_full fullRow sampleUserReg rfl rfl⟩

/-!  ## Helper lemmas for the secure unregistration claims  -/

theorem unregister_secure_eq_of_find (row : Row) (desc : String)
    (rid : RegistrarId) (j : Nat) (reg : HandlerRegistration)
    (hfind : findDescAux desc row 0 = some (j, reg)) :
    unregister_secure row desc rid =
      if reg.entry.is_system = true ∧ rid ≠ SYSTEM_REGISTRAR_ID then
        Except.error SecurityError.ProtectedHandler
      else if reg.entry.is_system = false ∧
          reg.entry.registrar_id ≠ rid then
        Except.error SecurityError.InvalidRegistrar
      else
        Except.ok (true, removeSlotAt row j) := by
  rw [unregister_secure, hfind]

theorem unregister_secure_eq_of_none (row : Row) (desc : String)
    (rid : RegistrarId) (hfind : findDescAux desc row 0 = none) :
    unregister_secure row desc rid = Except.ok (false, row) := by
  rw [unregister_secure, hfind]

theorem findDescAux_canon_first (d : String) (reg : HandlerRegistration)
    (l2 : List HandlerRegistration) (m : Nat)
    (hd : reg.entry.description = d) :
    ∀ (l1 : List HandlerRegistration),
      (∀ a ∈ l1, a.entry.description ≠ d) →
      ∀ i, findDescAux d (canon (l1 ++ reg :: l2) m) i =
        some (i + l1.length, reg) := by
  intro l1
  induction l1 with
  | nil =>
      intro _ i
      show findDescAux d (HandlerSlot.Occupied reg :: canon l2 m) i = _
      rw [findDescAux, if_pos hd]
      simp
  | cons a rest ih =>
      intro hno i
      show findDescAux d (HandlerSlot.Occupied a :: canon (rest ++ reg :: l2) m) i = _
      rw [findDescAux, if_neg (hno a (List.mem_cons_self a rest))]
      rw [ih (fun x hx => hno x (List.mem_cons_of_mem a hx)) (i + 1)]
      rw [List.length_cons]
      have harith : i + 1 + rest.length = i + (rest.length + 1) := by omega
      rw [harith]

/-- C3: secure unregistration removes a matching entry exactly when the
caller is permitted.  For the unique entry matching the description: a
`System`-protected entry rejects every non-system registrar with
`ProtectedHandler` (registry unchanged), a `User`-protected entry rejects
every registrar other than its creator with `InvalidRegistrarId` (registry
unchanged), and with the correct identifier the removal succeeds exactly
once — a second attempt reports `HandlerNotFound`. -/
theorem secure_unregistration_ownership (row : Row) (desc : String)
    (rid : RegistrarId) (j : Nat) (reg : HandlerRegistration)
    (hfind : findDescAux desc row 0 = some (j, reg))
    (huniq : (occList row).countP
      (fun r => decide (r.entry.description = desc)) = 1) :
    (reg.entry.protection_level = ProtectionLevel.System →
      rid ≠ SYSTEM_REGISTRAR_ID →
      unregister_trap_handler_secure true row desc rid =
        (Except.error TrapApiError.ProtectedHandler, row)) ∧
    (reg.entry.protection_level = ProtectionLevel.User →
      rid ≠ reg.entry.registrar_id →
      unregister_trap_handler_secure true row desc rid =
        (Except.error TrapApiError.InvalidRegistrarId, row)) ∧
    ((reg.entry.protection_level = ProtectionLevel.System ∧
        rid = SYSTEM_REGISTRAR_ID) ∨
      (reg.entry.protection_level = ProtectionLevel.User ∧
        rid = reg.entry.registrar_id) →
      unregister_trap_handler_secure true row desc rid =
        (Except.ok (), removeSlotAt row j) ∧
      (∀ r ∈ occList (removeSlotAt row j), r.entry.description ≠ desc) ∧
      unregister_trap_handler_secure true (removeSlotAt row j) desc rid =
        (Except.error TrapApiError.HandlerNotFound, removeSlotAt row j)) := by
  rcases findDescAux_some_split row desc j reg hfind with
    ⟨l1, l2, hrow, hlen, hnone, hdesc⟩
  have hocc_row : occList row = occList l1 ++ reg :: occList l2 := by
    rw [hrow, occList_append, occList_cons_occupied]
  have hcnt1 : (occList l1).countP
      (fun r => decide (r.entry.description = desc)) = 0 := by
    rw [List.countP_eq_zero]
    intro a ha
    simp [hnone a ha]
  have hcnt2 : (occList l2).countP
      (fun r => decide (r.entry.description = desc)) = 0 := by
    rw [hocc_row, List.countP_append, List.countP_cons] at huniq
    rw [hcnt1] at huniq
    simp [hdesc] at huniq
    exact List.countP_eq_zero.mpr
      (fun a ha hc => huniq a ha (of_decide_eq_true hc))
  have hnone2 : ∀ a ∈ occList l2, a.entry.description ≠ desc := by
    rw [List.countP_eq_zero] at hcnt2
    intro a ha hc
    exact hcnt2 a ha (by simp [hc])
  have hremoved : removeSlotAt row j = l1 ++ l2 ++ [HandlerSlot.Empty] := by
    rw [hrow, ← hlen]
    exact removeSlotAt_at_split l1 _ l2
  have hocc' : occList (removeSlotAt row j) = occList l1 ++ occList l2 := by
    rw [hremoved, occList_append, occList_append]
    show occList l1 ++ occList l2 ++ occList [HandlerSlot.Empty] = _
    rw [show occList [HandlerSlot.Empty] = [] from rfl, List.append_nil]
  have hnone' : ∀ r ∈ occList (removeSlotAt row j),
      r.entry.description ≠ desc := by
    intro r hr
    rw [hocc'] at hr
    rcases List.mem_append.mp hr with h1 | h2
    · exact hnone r h1
    · exact hnone2 r h2
  have hfind' : findDescAux desc (removeSlotAt row j) 0 = none :=
    (findDescAux_none_iff (removeSlotAt row j) desc 0).mpr hnone'
  refine ⟨?_, ?_, ?_⟩
  · intro hsys hrid
    have h1 : reg.entry.is_system = true := by
      simp [HandlerEntry.is_system, hsys]
    rw [unregister_trap_handler_secure, if_neg (by simp)]
    rw [unregister_secure_eq_of_find row desc rid j reg hfind,
      if_pos ⟨h1, hrid⟩]
  · intro husr hrid
    have h1 : reg.entry.is_system = false := by
      simp [HandlerEntry.is_system, husr]
    rw [unregister_trap_handler_secure, if_neg (by simp)]
    rw [unregister_secure_eq_of_find row desc rid j reg hfind]
    rw [if_neg (by intro hc; rw [h1] at hc; exact absurd hc.1 (by simp))]
    rw [if_pos ⟨h1, Ne.symm hrid⟩]
  · intro hok
    have hremove : unregister_secure row desc rid =
        Except.ok (true, removeSlotAt row j) := by
      rw [unregister_secure_eq_of_find row desc rid j reg hfind]
      rcases hok with ⟨hsys, hrid⟩ | ⟨husr, hrid⟩
      · have h1 : reg.entry.is_system = true := by
          simp [HandlerEntry.is_system, hsys]
        rw [if_neg (by intro hc; exact hc.2 hrid)]
        rw [if_neg (by intro hc; rw [h1] at hc; exact absurd hc.1 (by simp))]
      · have h1 : reg.entry.is_system = false := by
          simp [HandlerEntry.is_system, husr]
        rw [if_neg (by intro hc; rw [h1] at hc; exact absurd hc.1 (by simp))]
        rw [if_neg (by intro hc; exact hc.2 hrid.symm)]
    refine ⟨?_, hnone', ?_⟩
    · rw [unregister_trap_handler_secure, if_neg (by simp), hremove]
    · rw [unregister_trap_handler_secure, if_neg (by simp),
        unregister_secure_eq_of_none _ desc rid hfind']

/-- Witness for C3, on a concrete row whose unique "user-h" entry is
`User`-protected and owned by registrar 5; exercised with caller id 9. -/
theorem secure_unregistration_ownership_witness :
    (findDescAux "user-h" sampleRow 0 = some (0, sampleUserReg) ∧
     (occList sampleRow).countP
       (fun r => decide (r.entry.description = "user-h")) = 1) ∧
    ((sampleUserReg.entry.protection_level = ProtectionLevel.System →
      (9 : RegistrarId) ≠ SYSTEM_REGISTRAR_ID →
      unregister_trap_handler_secure true sampleRow "user-h" 9 =
        (Except.error TrapApiError.ProtectedHandler, sampleRow)) ∧
    (sampleUserReg.entry.protection_level = ProtectionLevel.User →
      (9 : RegistrarId) ≠ sampleUserReg.entry.registrar_id →
      unregister_trap_handler_secure true sampleRow "user-h" 9 =
        (Except.error TrapApiError.InvalidRegistrarId, sampleRow)) ∧
    ((sampleUserReg.entry.protection_level = ProtectionLevel.System ∧
        (9 : RegistrarId) = SYSTEM_REGISTRAR_ID) ∨
      (sampleUserReg.entry.protection_level = ProtectionLevel.User ∧
        (9 : RegistrarId) = sampleUserReg.entry.registrar_id) →
      unregister_trap_handler_secure true sampleRow "user-h" 9 =
        (Except.ok (), removeSlotAt sampleRow 0) ∧
      (∀ r ∈ occList (removeSlotAt sampleRow 0), r.entry.description ≠ "user-h") ∧
      unregister_trap_handler_secure true (removeSlotAt sampleRow 0) "user-h" 9 =
        (Except.error TrapApiError.HandlerNotFound, removeSlotAt sampleRow 0))) :=
  ⟨⟨rfl, by decide⟩,
   secure_unregistration_ownership sampleRow "user-h" 9 0 sampleUserReg rfl
     (by decide)⟩

/-- C10: a handler stored through the basic registration path carries
protection level `System` and the reserved registrar identifier 0, so every
secure unregistration attempt with a caller-generated (nonzero) registrar
identifier fails with `ProtectedHandler`. -/
theorem basic_registration_is_system_protected (row : Row) (hh : TrapHandler)
    (p : Nat) (d : String) (seq : Nat) (row' : Row) (rid : RegistrarId)
    (hlen : row.length = MAX_HANDLERS_PER_TYPE)
    (hcont : contiguous row = true)
    (hfresh : ∀ r ∈ occList row, r.entry.description ≠ d)
    (hreg : register row hh p d seq = some row')
    (hrid : rid ≠ SYSTEM_REGISTRAR_ID) :
    (∀ r ∈ occList row', r.entry.description = d →
      r.entry.protection_level = ProtectionLevel.System ∧
      r.entry.registrar_id = SYSTEM_REGISTRAR_ID) ∧
    unregister_secure row' d rid =
      Except.error SecurityError.ProtectedHandler := by
  have hle := occList_length_le row
  have hsum : (occList row).length + (row.length - (occList row).length) =
      MAX_HANDLERS_PER_TYPE := by omega
  have hcanon := contiguous_eq_canon row hcont
  rw [register, hcanon, register_internal_canon _ _ _ hsum] at hreg
  by_cases hfull : (occList row).length = MAX_HANDLERS_PER_TYPE
  · rw [if_pos hfull] at hreg; cases hreg
  · rw [if_neg hfull] at hreg
    set newReg : HandlerRegistration :=
      { entry := HandlerEntry.new hh p d, context_id := none, regSeq := seq }
      with hnew
    set jp := insertPos newReg.entry.priority (occList row) with hjp
    have hrow' : row' = canon ((occList row).take jp ++
        newReg :: (occList row).drop jp)
        (row.length - (occList row).length - 1) := (Option.some.inj hreg).symm
    have htake : ∀ a ∈ (occList row).take jp, a.entry.description ≠ d :=
      fun a ha => hfresh a (List.take_subset jp (occList row) ha)
    have hdrop : ∀ a ∈ (occList row).drop jp, a.entry.description ≠ d :=
      fun a ha => hfresh a (List.drop_subset jp (occList row) ha)
    have hdnew : newReg.entry.description = d := rfl
    constructor
    · intro r hr hrd
      rw [hrow', occList_canon] at hr
      rcases List.mem_append.mp hr with h1 | h2
      · exact absurd hrd (htake r h1)
      · rcases List.mem_cons.mp h2 with heq | h3
        · subst heq
          exact ⟨rfl, rfl⟩
        · exact absurd hrd (hdrop r h3)
    · have hfindnew : findDescAux d row' 0 =
          some (0 + ((occList row).take jp).length, newReg) := by
        rw [hrow']
        exact findDescAux_canon_first d newReg _ _ hdnew _ htake 0
      rw [unregister_secure_eq_of_find row' d rid _ newReg hfindnew]
      rw [if_pos ⟨rfl, hrid⟩]

/-- Witness for C10: registering "wc10" into the empty row and then trying
to unregister it with registrar id 5. -/
theorem basic_registration_is_system_protected_witness :
    (emptyRow.length = MAX_HANDLERS_PER_TYPE ∧ contiguous emptyRow = true ∧
     (∀ r ∈ occList emptyRow, r.entry.description ≠ "wc10") ∧
     register emptyRow hPass 10 "wc10" 0 = some c10Row ∧
     (5 : RegistrarId) ≠ SYSTEM_REGISTRAR_ID) ∧
    ((∀ r ∈ occList c10Row, r.entry.description = "wc10" →
      r.entry.protection_level = ProtectionLevel.System ∧
      r.entry.registrar_id = SYSTEM_REGISTRAR_ID) ∧
    unregister_secure c10Row "wc10" 5 =
      Except.error SecurityError.ProtectedHandler) :=
  ⟨⟨rfl, rfl, by decide, rfl, by decide⟩,
   basic_registration_is_system_protected emptyRow hPass 10 "wc10" 0 c10Row 5
     rfl rfl (by decide) rfl (by decide)⟩

theorem slotCtxMatch_of_perm (cid : ContextId) (rid : RegistrarId)
    (reg : HandlerRegistration)
    (hperm : reg.context_id = some cid → can_remove reg rid = true) :
    slotCtxMatch cid rid (HandlerSlot.Occupied reg) =
      decide (reg.context_id = some cid) := by
  show (match reg.context_id with
    | some c => decide (c = cid) && can_remove reg rid
    | none => false) = decide (reg.context_id = some cid)
  cases hc : reg.context_id with
  | none => simp
  | some c =>
      by_cases hcc : c = cid
      · subst hcc
        rw [hperm hc]
        simp
      · simp [hcc]

/-- C7: bulk secure unregistration for a context id removes exactly the
handlers registered under that context id (assuming the caller owns them),
returns their number, and leaves every handler registered under a different
context id — or under none — in place, in order. -/
theorem context_bulk_cleanup (slots : Fin TRAP_TYPE_COUNT → Row)
    (cid : ContextId) (rid : RegistrarId)
    (hlen : ∀ t, (slots t).length ≤ MAX_HANDLERS_PER_TYPE)
    (hperm : ∀ t, ∀ reg ∈ occList (slots t), reg.context_id = some cid →
      can_remove reg rid = true) :
    (unregister_context_secure slots cid rid).2 =
      ((List.finRange TRAP_TYPE_COUNT).map (fun t =>
        (occList (slots t)).countP
          (fun reg => decide (reg.context_id = some cid)))).sum ∧
    ∀ t, occList ((unregister_context_secure slots cid rid).1 t) =
      (occList (slots t)).filter
        (fun reg => !(decide (reg.context_id = some cid))) := by
  have hPe : slotCtxMatch cid rid HandlerSlot.Empty = false := rfl
  have hcount : ∀ t, (unregister_context_row (slots t) cid rid).2 =
      (occList (slots t)).countP
        (fun reg => decide (reg.context_id = some cid)) := by
    intro t
    rw [unregister_context_row_eq (slots t) cid rid (hlen t)]
    show (slots t).countP (slotCtxMatch cid rid) = _
    rw [countP_occList _ _ hPe]
    apply List.countP_congr
    intro reg hreg
    rw [slotCtxMatch_of_perm cid rid reg (hperm t reg hreg)]
  constructor
  · show ((List.finRange TRAP_TYPE_COUNT).map
        (fun t => (unregister_context_row (slots t) cid rid).2)).sum = _
    congr 1
    exact List.map_congr_left (fun t _ => hcount t)
  · intro t
    show occList (unregister_context_row (slots t) cid rid).1 = _
    rw [unregister_context_row_eq (slots t) cid rid (hlen t)]
    show occList ((slots t).filter (fun s => !(slotCtxMatch cid rid s)) ++
      List.replicate ((slots t).countP (slotCtxMatch cid rid))
        HandlerSlot.Empty) = _
    rw [occList_append, occList_replicate_empty, List.append_nil,
      occList_filter]
    apply List.filter_congr
    intro reg hreg
    rw [slotCtxMatch_of_perm cid rid reg (hperm t reg hreg)]

/-- Witness for C7: a registry whose first row holds one handler under
context 1, one under context 2 and one kernel handler without a context,
cleaned up for context 1 by its owner (registrar 5). -/
theorem context_bulk_cleanup_witness :
    ((∀ t, (sampleSlots t).length ≤ MAX_HANDLERS_PER_TYPE) ∧
     (∀ t, ∀ reg ∈ occList (sampleSlots t), reg.context_id = some 1 →
       can_remove reg 5 = true)) ∧
    ((unregister_context_secure sampleSlots 1 5).2 =
      ((List.finRange TRAP_TYPE_COUNT).map (fun t =>
        (occList (sampleSlots t)).countP
          (fun reg => decide (reg.context_id = some 1)))).sum ∧
    ∀ t, occList ((unregister_context_secure sampleSlots 1 5).1 t) =
      (occList (sampleSlots t)).filter
        (fun reg => !(decide (reg.context_id = some 1)))) :=
  ⟨⟨by decide, by decide⟩,
   context_bulk_cleanup sampleSlots 1 5 (by decide) (by decide)⟩

/-- C8: below the configured maximum nesting level (the default
configuration is 8; any maximum up to 55 keeps every context slot inside
the 16 KiB interrupt stack), saving a context for an interrupt and then
immediately restoring it returns the nesting counter to its pre-call value;
restoring with a zero counter reports `StackUnderflow`. -/
theorem nesting_save_restore_round_trip (s : ContextMgr)
    (h1 : s.nest < s.max_nest_level) (h2 : s.max_nest_level ≤ 55) :
    save_context_for_interrupt s =
      Except.ok ({ s with nest := s.nest + 1 }, s.nest + 1) ∧
    restore_context_from_interrupt { s with nest := s.nest + 1 } =
      Except.ok { s with nest := s.nest } ∧
    ∀ s0 : ContextMgr, s0.nest = 0 →
      restore_context_from_interrupt s0 =
        Except.error ContextError.StackUnderflow := by
  have hsize : TRAP_CONTEXT_SIZE = 288 := rfl
  have hstk : INTERRUPT_STACK_SIZE = 16384 := rfl
  refine ⟨?_, ?_, ?_⟩
  · have he : enter_interrupt s =
        Except.ok ({ s with nest := s.nest + 1 }, s.nest + 1) := by
      rw [enter_interrupt, if_neg (by omega)]
    rw [save_context_for_interrupt, he]
    show (if (s.nest + 1) * TRAP_CONTEXT_SIZE + TRAP_CONTEXT_SIZE >
        INTERRUPT_STACK_SIZE then Except.error ContextError.StackOverflow
      else Except.ok ({ s with nest := s.nest + 1 }, s.nest + 1)) =
      Except.ok ({ s with nest := s.nest + 1 }, s.nest + 1)
    rw [hsize, hstk, if_neg (by omega)]
  · have he : exit_interrupt { s with nest := s.nest + 1 } =
        Except.ok ({ s with nest := s.nest }, s.nest) := by
      rw [exit_interrupt]
      rw [if_neg (by show ¬(s.nest + 1 = 0); omega)]
      show Except.ok ({ s with nest := s.nest + 1 - 1 }, s.nest + 1 - 1) = _
      rw [show s.nest + 1 - 1 = s.nest from rfl]
    rw [restore_context_from_interrupt, he]
  · intro s0 h0
    rw [restore_context_from_interrupt, exit_interrupt, if_pos h0]

/-- Witness for C8: the fresh context manager (counter 0, default maximum
8). -/
theorem nesting_save_restore_round_trip_witness :
    ((0 : Nat) < 8 ∧ (8 : Nat) ≤ 55) ∧
    (save_context_for_interrupt ⟨0, 8⟩ = Except.ok (⟨1, 8⟩, 1) ∧
     restore_context_from_interrupt ⟨1, 8⟩ = Except.ok ⟨0, 8⟩ ∧
     ∀ s0 : ContextMgr, s0.nest = 0 →
       restore_context_from_interrupt s0 =
         Except.error ContextError.StackUnderflow) :=
  ⟨⟨by decide, by decide⟩,
   nesting_save_restore_round_trip ⟨0, 8⟩ (by decide) (by decide)⟩

/-- C4: when panic mode is not latched and a `Fatal` error arrives that no
handler claims, `handle_error` latches panic mode — the latch event precedes
every handler invocation in the trace — and leaves it set; from any state
with panic mode set, every `handle_error` call logs the new error as
`Ignored` and returns `Ignored` without invoking any handler, until
`reset_panic_mode` clears the latch. -/
theorem panic_mode_latch (m : ErrorManager) (e : SystemError)
    (hp : m.panic_mode = false) (hf : e.code.is_fatal = true)
    (hclaim : (errScan e (m.handlers.take m.handler_count)
      ErrorResult.Unhandled false).2.1 = false) :
    (m.handle_error e).1.panic_mode = true ∧
    (∃ tl, (m.handle_error e).2.2.2 = ErrEvent.latch :: tl) ∧
    (∀ (m2 : ErrorManager) (e2 : SystemError), m2.panic_mode = true →
      (m2.handle_error e2).2.1 = ErrorResult.Ignored ∧
      (m2.handle_error e2).2.2.2 = ([] : List ErrEvent) ∧
      (m2.handle_error e2).1.panic_mode = true ∧
      (m2.handle_error e2).1.log = m2.log.log e2 false ErrorResult.Ignored ∧
      m2.reset_panic_mode.panic_mode = false) := by
  have hout : m.handle_error e =
      ({ m with
          panic_mode := true,
          log := m.log.log e
            (errScan e (m.handlers.take m.handler_count)
              ErrorResult.Unhandled false).2.1
            (errScan e (m.handlers.take m.handler_count)
              ErrorResult.Unhandled false).1 },
       (errScan e (m.handlers.take m.handler_count)
         ErrorResult.Unhandled false).1,
       e.code.is_fatal && !(errScan e (m.handlers.take m.handler_count)
         ErrorResult.Unhandled false).2.1,
       ErrEvent.latch :: (errScan e (m.handlers.take m.handler_count)
         ErrorResult.Unhandled false).2.2) := by
    rw [ErrorManager.handle_error, if_neg (by rw [hp]; simp)]
    simp only [hf, if_pos rfl]
    rfl
  refine ⟨by rw [hout], ⟨_, by rw [hout]⟩, ?_⟩
  intro m2 e2 hp2
  have hout2 : m2.handle_error e2 =
      ({ m2 with log := m2.log.log e2 false ErrorResult.Ignored },
       ErrorResult.Ignored, false, ([] : List ErrEvent)) := by
    rw [ErrorManager.handle_error, if_pos hp2]
  refine ⟨by rw [hout2], by rw [hout2], ?_, by rw [hout2], rfl⟩
  rw [hout2]
  exact hp2

/-- Witness for C4: an empty error manager handling a fatal memory error. -/
theorem panic_mode_latch_witness :
    (emptyMgr.panic_mode = false ∧ fatalErr.code.is_fatal = true ∧
     (errScan fatalErr (emptyMgr.handlers.take emptyMgr.handler_count)
       ErrorResult.Unhandled false).2.1 = false) ∧
    ((emptyMgr.handle_error fatalErr).1.panic_mode = true ∧
    (∃ tl, (emptyMgr.handle_error fatalErr).2.2.2 = ErrEvent.latch :: tl) ∧
    (∀ (m2 : ErrorManager) (e2 : SystemError), m2.panic_mode = true →
      (m2.handle_error e2).2.1 = ErrorResult.Ignored ∧
      (m2.handle_error e2).2.2.2 = ([] : List ErrEvent) ∧
      (m2.handle_error e2).1.panic_mode = true ∧
      (m2.handle_error e2).1.log = m2.log.log e2 false ErrorResult.Ignored ∧
      m2.reset_panic_mode.panic_mode = false)) :=
  ⟨⟨rfl, by decide, rfl⟩,
   panic_mode_latch emptyMgr fatalErr rfl (by decide) rfl⟩

/-- C5 (code bug): after logging 37 errors (timestamps 1..37) into the
capacity-32 circular log, `print_recent(32)` prints the right set of
entries but in the wrong order: it starts at physical index 0 and yields
timestamps 33,34,35,36,37,6,...,32 instead of the chronological
6,...,37. -/
theorem print_recent_wraparound_out_of_order :
    (log37.print_recent_list 32).map (fun en => en.error.timestamp) =
      [33, 34, 35, 36, 37] ++ List.range' 6 27 ∧
    ([33, 34, 35, 36, 37] ++ List.range' 6 27 : List Nat) ≠
      List.range' 6 32 := by
  constructor
  · rfl
  · decide

end TrapOS
